import Mathlib

/-!
Verification of the turn-based chess match engine of this repository
(`src/eval/eval.py`) against its natural-language specification.

The Python source is shallowly embedded: the chess rules oracle
(`python-chess`) is an abstract `Oracle` structure, agents are `Player`
values, floats are rationals, Python exceptions are an `Except PyError`
result, and file / stdout side effects (CSV rows, checkpoint files,
`print`) are dropped because they do not feed back into control flow.
The one Python exception that does affect control flow — the `KeyError`
raised by `player.get_config()["model"]` inside the parse-failure
handler of `get_legal_move` — is modelled explicitly.
-/

namespace ChessGPT

/-! ## Whitespace tokenization (Python `str.split()` on whitespace) -/

/-- Accumulator-based word splitter over characters: splits on whitespace
characters, dropping empty tokens, like Python `str.split()` with no
arguments.  `acc` holds the (reversed) current partial token. -/
def wordsAux : List Char → List Char → List (List Char)
  | [], acc => if acc.isEmpty then [] else [acc.reverse]
  | c :: cs, acc =>
    if c.isWhitespace then
      if acc.isEmpty then wordsAux cs [] else acc.reverse :: wordsAux cs []
    else wordsAux cs (c :: acc)

/-- Tokenize a string on whitespace, dropping empty tokens. -/
def words (s : String) : List (List Char) := wordsAux s.data []

/-! ## Data model -/

/-- Python exceptions that reach the embedded control flow.
`keyError` models the `KeyError` raised by `player.get_config()["model"]`
when the config dict has no `"model"` key; `exception` models
`raise Exception(msg)`; `fuelExhausted` is an artifact of embedding the
source's `while` loop with fuel and is proved unreachable for the fuel
used by `playOneGame`. -/
inductive PyError where
  | keyError : PyError
  | exception : String → PyError
  | fuelExhausted : PyError
deriving DecidableEq, Repr

/-- `LegalMoveResponse` dataclass (eval.py lines 14-20), with
`chess.Move` abstracted to a type parameter. -/
structure LegalMoveResponse (Move : Type) where
  move_san : Option String := none
  move_uci : Option Move := none
  attempts : Nat := 0
  is_resignation : Bool := false
  is_illegal_move : Bool := false
deriving DecidableEq, Repr

/-- Modelled from the spec: the agent configuration record returned by the
`describe` capability (`get_config` in the source).  `src/eval/players.py` is
not part of the given sources; per spec section 6 the record contains either
a model identifier or a skill level plus per-move time budget.  Dict lookup
`config["model"]` succeeds exactly on the `model` variant and raises
`KeyError` on the `stockfish` variant. -/
inductive PlayerConfig where
  | model (id : String)
  | stockfish (skill_level : Nat) (play_time : ℚ)
deriving DecidableEq, Repr

/-- Modelled from the spec: an agent.  `getMove` is the `propose a move
given (board state, transcript, urgency hint)` capability (`get_move` in
the source, which may return no text), `config` is its self-description. -/
structure Player (Pos : Type) where
  getMove : Pos → String → ℚ → Option String
  config : PlayerConfig

/-- The chess rules oracle (`python-chess`) as an abstract capability
record, per spec section 6.  `Pos` is the opaque `chess.Board` state,
`Move` the opaque `chess.Move`.  Board mutation is modelled by explicit
state passing: `push` returns the successor position. -/
structure Oracle (Pos Move : Type) where
  init : Pos
  reset : Pos → Pos
  legalMoves : Pos → List Move
  parseSan : Pos → String → Option Move
  push : Pos → Move → Pos
  isGameOver : Pos → Bool
  result : Pos → String
  fullmoveNumber : Pos → Nat
  san : Pos → Move → String

/-- A Python score value as stored by `record_results`: the resignation /
illegal-exhaustion branches store numeric literals, the natural-result
branch stores the pieces of `result.split("-")` as strings, and the
fallback stores the float `-1e10`. -/
inductive ScoreVal where
  | num (q : ℚ)
  | str (s : String)
deriving DecidableEq, Repr

/-- The sentinel `-1e10` score (eval.py lines 69-70). -/
def sentinelScore : ScoreVal := .num (-(10 ^ 10))

/-- Numeric reading of a stored score value, for stating the zero-sum
invariant: the strings produced by splitting a standard oracle result
string (`"1"`, `"0"`, `"1/2"`) denote the corresponding rationals. -/
def ScoreVal.toRat? : ScoreVal → Option ℚ
  | .num q => some q
  | .str s =>
    if s = "1" then some 1
    else if s = "0" then some 0
    else if s = "1/2" then some (1 / 2)
    else none

/-- `get_player_titles_and_time` (eval.py lines 126-153) over the two
configuration records. -/
def get_player_titles_and_time (c1 c2 : PlayerConfig) :
    String × String × Option ℚ × Option ℚ :=
  let (t1, time1) :=
    match c1 with
    | .model id => (id, none)
    | .stockfish skill play_time => ("stockfish_" ++ Nat.repr skill, some play_time)
  let (t2, time2) :=
    match c2 with
    | .model id => (id, none)
    | .stockfish skill play_time => ("stockfish_" ++ Nat.repr skill, some play_time)
  (t1, t2, time1, time2)

/-- The `info_dict` assembled by `record_results` (eval.py lines 72-95),
restricted to its pure fields.  `game_id` (wall clock + random), the
wall-clock `time_taken` and the derived `game_title` are omitted; the CSV
and `tmp/game.txt` writes are external output. -/
structure InfoDict where
  transcript : String
  result : String
  player_one_title : String
  player_two_title : String
  player_one_time : Option ℚ
  player_two_time : Option ℚ
  player_one_score : ScoreVal
  player_two_score : ScoreVal
  player_one_illegal_moves : Nat
  player_two_illegal_moves : Nat
  player_one_legal_moves : ℤ
  player_two_legal_moves : ℤ
  player_one_resignation : Bool
  player_two_resignation : Bool
  player_one_failed_to_find_legal_move : Bool
  player_two_failed_to_find_legal_move : Bool
  number_of_moves : Nat
  total_moves : Nat
  illegal_moves : Nat
deriving DecidableEq, Repr

/-- Python `str.split(sep)` for a one-character separator, over character
lists (empty pieces are kept, `[] ↦ [""]`). -/
def splitOnChar (sep : Char) : List Char → List (List Char)
  | [] => [[]]
  | c :: cs =>
    let r := splitOnChar sep cs
    if c = sep then [] :: r
    else
      match r with
      | [] => [[c]]
      | t :: ts => (c :: t) :: ts

/-- Python `result.split("-")`. -/
def pySplitDash (s : String) : List String :=
  (splitOnChar '-' s.data).map String.mk

/-- Python `"-" in result`. -/
def pyContainsDash (s : String) : Bool := s.data.contains '-'

section Engine

variable {Pos Move : Type} [DecidableEq Move]

/-- `record_results` (eval.py lines 23-117): score adjudication and record
assembly.  `board` enters only through `O.result` and `O.fullmoveNumber`.
`"-" in result` and `result.split("-")` are modelled at the character
level (`pyContainsDash`, `pySplitDash`).  In the natural-result branch the
source indexes the split at 0 and 1; the containment guard guarantees at
least two pieces, so the `getD` defaults are never consulted. -/
def record_results (O : Oracle Pos Move) (board : Pos)
    (c1 c2 : PlayerConfig) (game_state : String)
    (player_one_illegal_moves player_two_illegal_moves : Nat)
    (player_one_legal_moves player_two_legal_moves : ℤ)
    (player_one_resignation player_two_resignation : Bool)
    (player_one_failed_to_find_legal_move player_two_failed_to_find_legal_move : Bool)
    (total_moves illegal_moves : Nat) : InfoDict :=
  let titles := get_player_titles_and_time c1 c2
  let rs : String × ScoreVal × ScoreVal :=
    if player_one_resignation || player_one_failed_to_find_legal_move then
      ("0-1", ScoreVal.num 0, ScoreVal.num 1)
    else if player_two_resignation || player_two_failed_to_find_legal_move then
      ("1-0", ScoreVal.num 1, ScoreVal.num 0)
    else
      let result := O.result board
      if pyContainsDash result then
        (result, ScoreVal.str ((pySplitDash result).getD 0 ""),
          ScoreVal.str ((pySplitDash result).getD 1 ""))
      else if result = "*" then
        (result, ScoreVal.num (1 / 2), ScoreVal.num (1 / 2))
      else
        (result, sentinelScore, sentinelScore)
  { transcript := game_state
    result := rs.1
    player_one_title := titles.1
    player_two_title := titles.2.1
    player_one_time := titles.2.2.1
    player_two_time := titles.2.2.2
    player_one_score := rs.2.1
    player_two_score := rs.2.2
    player_one_illegal_moves := player_one_illegal_moves
    player_two_illegal_moves := player_two_illegal_moves
    player_one_legal_moves := player_one_legal_moves
    player_two_legal_moves := player_two_legal_moves
    player_one_resignation := player_one_resignation
    player_two_resignation := player_two_resignation
    player_one_failed_to_find_legal_move := player_one_failed_to_find_legal_move
    player_two_failed_to_find_legal_move := player_two_failed_to_find_legal_move
    number_of_moves := O.fullmoveNumber board
    total_moves := total_moves
    illegal_moves := illegal_moves }

/-- `move_san.startswith(" ")`, read off the character data. -/
def startsWithSpace (s : String) : Bool := s.data.head? == some ' '

/-- The urgency hint for a given attempt index:
`min(((attempt / max_attempts) * 1) + 0.001, 0.5)` (eval.py line 191). -/
def urgency (attempt max_attempts : Nat) : ℚ :=
  min ((attempt : ℚ) / (max_attempts : ℚ) * 1 + 1 / 1000) (1 / 2)

/-- The `for attempt in range(max_attempts)` loop of `get_legal_move`
(eval.py lines 189-231), as a recursion on the number of remaining
attempts with the current attempt index carried alongside.
Falling off the loop returns the illegal-exhaustion response.
`board.parse_san(move_san)` raises on a `None` argument as well as on
unparseable text, so both enter the exception handler, whose
`player.get_config()["model"]` lookup raises `KeyError` unless the config
carries a model identifier (the file append to the diagnostic side-channel
for `gpt-3.5-turbo-instruct` is an external write with no control-flow
effect and is not recorded). -/
def getLegalMoveLoop (P : Player Pos) (O : Oracle Pos Move)
    (board : Pos) (game_state : String) (max_attempts : Nat) :
    Nat → Nat → Except PyError (LegalMoveResponse Move)
  | 0, _ =>
    .ok { move_san := none, move_uci := none, attempts := max_attempts,
          is_resignation := false, is_illegal_move := true }
  | remaining + 1, attempt =>
    let move_san := P.getMove board game_state (urgency attempt max_attempts)
    let isMarker :=
      match move_san with
      | some s => s = "1-0" || s = "0-1" || s = "1/2-1/2"
      | none => false
    if isMarker then
      .ok { move_san := none, move_uci := none, attempts := attempt,
            is_resignation := true, is_illegal_move := false }
    else
      match move_san with
      | none =>
        match P.config with
        | .model _ => getLegalMoveLoop P O board game_state max_attempts remaining (attempt + 1)
        | .stockfish _ _ => .error .keyError
      | some s =>
        match O.parseSan board s with
        | none =>
          match P.config with
          | .model _ => getLegalMoveLoop P O board game_state max_attempts remaining (attempt + 1)
          | .stockfish _ _ => .error .keyError
        | some m =>
          if m ∈ O.legalMoves board then
            .ok { move_san := some (if startsWithSpace s then s else " " ++ s),
                  move_uci := some m, attempts := attempt,
                  is_resignation := false, is_illegal_move := false }
          else getLegalMoveLoop P O board game_state max_attempts remaining (attempt + 1)

/-- `get_legal_move` (eval.py lines 178-231).  The `player_one` flag is
accepted and ignored, as in the source. -/
def get_legal_move (P : Player Pos) (O : Oracle Pos Move) (board : Pos)
    (game_state : String) (_player_one : Bool) (max_attempts : Nat := 5) :
    Except PyError (LegalMoveResponse Move) :=
  getLegalMoveLoop P O board game_state max_attempts max_attempts 0

/-- Result of `play_turn` (eval.py lines 234-255): the tuple
`(game_state, resignation, failed_to_find_legal_move, illegal_moves)`
together with the (possibly) mutated board.  `trace` is ghost
instrumentation, not present in the source: it accumulates, in order, each
`(move_san as appended, move_uci)` pair at the single point where
`board.push` is executed, so that the transcript round-trip property can
be stated. -/
structure TurnResult (Pos Move : Type) where
  board : Pos
  game_state : String
  trace : List (String × Move)
  resignation : Bool
  failed_to_find_legal_move : Bool
  illegal_moves : Nat

/-- `play_turn` (eval.py lines 234-255). -/
def play_turn (P : Player Pos) (O : Oracle Pos Move) (board : Pos)
    (game_state : String) (trace : List (String × Move)) (player_one : Bool) :
    Except PyError (TurnResult Pos Move) :=
  match get_legal_move P O board game_state player_one 5 with
  | .error e => .error e
  | .ok result =>
    let illegal_moves := result.attempts
    let move_san := result.move_san
    let move_uci := result.move_uci
    let resignation := result.is_resignation
    let failed_to_find_legal_move := result.is_illegal_move
    if resignation then
      .ok ⟨board, game_state, trace, resignation, failed_to_find_legal_move, illegal_moves⟩
    else if failed_to_find_legal_move then
      .ok ⟨board, game_state, trace, resignation, failed_to_find_legal_move, illegal_moves⟩
    else
      match move_san, move_uci with
      | some s, some m =>
        .ok ⟨O.push board m, game_state ++ s, trace ++ [(s, m)],
          resignation, failed_to_find_legal_move, illegal_moves⟩
      | _, _ =>
        .ok ⟨board, game_state, trace, resignation, failed_to_find_legal_move, illegal_moves⟩

/-- One iteration `moveIdx` of the outer generation loop of
`initialize_game_with_random_moves` (eval.py lines 269-284), with the
inner `for player in range(2)` loop unrolled.  `random.choice` is modelled
by the `pick` parameter applied to a running counter `ctr` (the global
random stream position).  Returns the updated
`(game_state, board, moves, ctr)`; as in the source, a `break` on an
empty legal-move list leaves `moves` empty, and a completed iteration
leaves `moves` as the (nonempty) list queried for the second ply. -/
def genOne (O : Oracle Pos Move) (pick : Nat → List Move → Move)
    (ctr moveIdx : Nat) (board : Pos) (game_state : String) :
    String × Pos × List Move × Nat :=
  let moves := O.legalMoves board
  if moves = [] then (game_state, board, moves, ctr)
  else
    let move := pick ctr moves
    let moveString := O.san board move
    let game_state :=
      (if moveIdx > 1 then game_state ++ " " else game_state) ++
        (Nat.repr moveIdx ++ ". " ++ moveString)
    let board := O.push board move
    let ctr := ctr + 1
    let moves := O.legalMoves board
    if moves = [] then (game_state, board, moves, ctr)
    else
      let move := pick ctr moves
      let moveString := O.san board move
      let game_state := game_state ++ " " ++ moveString
      let board := O.push board move
      (game_state, board, moves, ctr + 1)

/-- The outer `for moveIdx in range(1, randomize_opening_moves + 1)` loop
(eval.py lines 269-287): runs `genOne` for successive `moveIdx`, stopping
early when an empty legal-move list propagates out (`if not moves: break`).
The final component mirrors the source's `moves` variable, which the
attempt loop tests for success. -/
def genLoop (O : Oracle Pos Move) (pick : Nat → List Move → Move) :
    Nat → Nat → Nat → Pos → String → List Move → String × Pos × List Move × Nat
  | 0, _, ctr, board, game_state, moves => (game_state, board, moves, ctr)
  | remaining + 1, moveIdx, ctr, board, game_state, _ =>
    match genOne O pick ctr moveIdx board game_state with
    | (gs, b, moves, ctr') =>
      if moves = [] then (gs, b, moves, ctr')
      else genLoop O pick remaining (moveIdx + 1) ctr' b gs moves

/-- One attempt of `initialize_game_with_random_moves` (eval.py lines
263-291): reset the board and the game state, then generate
`randomize_opening_moves` full moves. -/
def initAttempt (O : Oracle Pos Move) (pick : Nat → List Move → Move)
    (board0 : Pos) (initial_game_state : String) (randomize_opening_moves : Nat)
    (ctr : Nat) : String × Pos × List Move × Nat :=
  genLoop O pick randomize_opening_moves 1 ctr (O.reset board0) initial_game_state []

/-- The `for attempt in range(MAX_INIT_ATTEMPTS)` loop with its `for/else`
clause (eval.py lines 263-294): at most `remaining` further attempts, each
from a fresh reset; exhausting them raises
`Exception("Failed to initialize the game after maximum attempts.")`. -/
def initAttemptLoop (O : Oracle Pos Move) (pick : Nat → List Move → Move)
    (board0 : Pos) (initial_game_state : String) (randomize_opening_moves : Nat) :
    Nat → Nat → Except PyError (String × Pos)
  | 0, _ => .error (.exception "Failed to initialize the game after maximum attempts.")
  | remaining + 1, ctr =>
    match initAttempt O pick board0 initial_game_state randomize_opening_moves ctr with
    | (gs, b, moves, ctr') =>
      if moves ≠ [] then .ok (gs, b)
      else initAttemptLoop O pick board0 initial_game_state randomize_opening_moves remaining ctr'

/-- `initialize_game_with_random_moves` (eval.py lines 258-297), with
`MAX_INIT_ATTEMPTS = 5`. -/
def initialize_game_with_random_moves (O : Oracle Pos Move)
    (pick : Nat → List Move → Move) (board : Pos) (initial_game_state : String)
    (randomize_opening_moves : Nat) (ctr : Nat := 0) : Except PyError (String × Pos) :=
  initAttemptLoop O pick board initial_game_state randomize_opening_moves 5 ctr

/-- The per-game mutable state of `play_game`'s inner `while` loop
(eval.py lines 321-386).  `trace` and `numTrace` are ghost instrumentation
(not in the source): `trace` accumulates the pushed moves with their
appended text (see `TurnResult`), `numTrace` the full-move number read
from the oracle at the top of each iteration, where the move-number token
is appended. -/
structure GState (Pos Move : Type) where
  board : Pos
  game_state : String
  player_one_illegal_moves : Nat
  player_two_illegal_moves : Nat
  player_one_legal_moves : ℤ
  player_two_legal_moves : ℤ
  player_one_resignation : Bool
  player_two_resignation : Bool
  player_one_failed_to_find_legal_move : Bool
  player_two_failed_to_find_legal_move : Bool
  total_moves : Nat
  illegal_moves : Nat
  trace : List (String × Move)
  numTrace : List Nat

/-- The per-game counter initialization (eval.py lines 321-332). -/
def gstate0 (board : Pos) (game_state : String) : GState Pos Move :=
  { board := board, game_state := game_state,
    player_one_illegal_moves := 0, player_two_illegal_moves := 0,
    player_one_legal_moves := 0, player_two_legal_moves := 0,
    player_one_resignation := false, player_two_resignation := false,
    player_one_failed_to_find_legal_move := false,
    player_two_failed_to_find_legal_move := false,
    total_moves := 0, illegal_moves := 0, trace := [], numTrace := [] }

/-- The transcript after the move-number token append at the top of a loop
iteration (eval.py lines 337-348): a separating space unless the oracle's
full-move number is 1, then `"<n>."`. -/
def gsWithMoveNum (O : Oracle Pos Move) (s : GState Pos Move) : String :=
  (if O.fullmoveNumber s.board ≠ 1 then s.game_state ++ " " else s.game_state) ++
    (Nat.repr (O.fullmoveNumber s.board) ++ ".")

/-- One iteration of the `while not board.is_game_over()` body (eval.py
lines 335-386), assuming the top-of-loop game-over test already passed.
Returns the updated state and whether the loop continues (`false` when one
of the three `break`s fired).  The `tmp/game.txt` checkpoint write and the
`print`s are external output. -/
def playGameBody (P1 P2 : Player Pos) (O : Oracle Pos Move) (maxMoves : Nat)
    (s : GState Pos Move) : Except PyError (GState Pos Move × Bool) :=
  let fm := O.fullmoveNumber s.board
  let total_moves := s.total_moves + 1
  let p1_legal := s.player_one_legal_moves + 1
  let p2_legal := s.player_two_legal_moves + 1
  let gs := gsWithMoveNum O s
  let numTrace := s.numTrace ++ [fm]
  match play_turn P1 O s.board gs s.trace true with
  | .error e => .error e
  | .ok r1 =>
    let p1_illegal := s.player_one_illegal_moves + r1.illegal_moves
    let p1_legal := if r1.illegal_moves ≠ 0 then p1_legal - 1 else p1_legal
    let s1 : GState Pos Move :=
      { s with
        board := r1.board, game_state := r1.game_state, trace := r1.trace,
        numTrace := numTrace, total_moves := total_moves,
        player_one_illegal_moves := p1_illegal,
        player_one_legal_moves := p1_legal,
        player_two_legal_moves := p2_legal,
        player_one_resignation := r1.resignation,
        player_one_failed_to_find_legal_move := r1.failed_to_find_legal_move }
    if O.isGameOver r1.board || r1.resignation || r1.failed_to_find_legal_move then
      .ok (s1, false)
    else
      match play_turn P2 O r1.board r1.game_state r1.trace false with
      | .error e => .error e
      | .ok r2 =>
        let p2_illegal := s.player_two_illegal_moves + r2.illegal_moves
        let p2_legal := if r2.illegal_moves ≠ 0 then p2_legal - 1 else p2_legal
        let s2 : GState Pos Move :=
          { s1 with
            board := r2.board, game_state := r2.game_state, trace := r2.trace,
            player_two_illegal_moves := p2_illegal,
            player_two_legal_moves := p2_legal,
            player_two_resignation := r2.resignation,
            player_two_failed_to_find_legal_move := r2.failed_to_find_legal_move }
        if O.isGameOver r2.board || r2.resignation || r2.failed_to_find_legal_move then
          .ok (s2, false)
        else if total_moves > maxMoves then
          .ok (s2, false)
        else
          .ok (s2, true)

/-- The `while not board.is_game_over()` loop (eval.py lines 334-386),
driven by fuel; `playOneGame` supplies fuel `maxMoves + 1`, which
`playGameLoop_not_fuelExhausted` shows is enough, so the `fuelExhausted`
case is unreachable there. -/
def playGameLoop (P1 P2 : Player Pos) (O : Oracle Pos Move) (maxMoves : Nat) :
    Nat → GState Pos Move → Except PyError (GState Pos Move)
  | 0, _ => .error .fuelExhausted
  | fuel + 1, s =>
    if O.isGameOver s.board then .ok s
    else
      match playGameBody P1 P2 O maxMoves s with
      | .error e => .error e
      | .ok (s', cont) =>
        if cont then playGameLoop P1 P2 O maxMoves fuel s' else .ok s'

/-- `MAX_MOVES` (eval.py lines 419-423): 1000, overridden to 89 because
`NANOGPT = True`. -/
def MAX_MOVES : Nat := 89

/-- One game of `play_game` (eval.py lines 311-410): the body of the
`for _ in range(max_games)` loop.  `initial_game_state` models the
contents of `tmp/prompt.txt`; the opening is randomized when
`randomize_opening_moves` is given.  Returns the `record_results` record
together with the final loop state (the latter exposing the ghost
traces). -/
def playOneGame (P1 P2 : Player Pos) (O : Oracle Pos Move)
    (initial_game_state : String) (randomize_opening_moves : Option Nat)
    (pick : Nat → List Move → Move) (maxMoves : Nat) :
    Except PyError (InfoDict × GState Pos Move) :=
  let board := O.init
  match
    (match randomize_opening_moves with
     | some n => initialize_game_with_random_moves O pick board initial_game_state n
     | none => .ok (initial_game_state, board)) with
  | .error e => .error e
  | .ok (gs0, b0) =>
    match playGameLoop P1 P2 O maxMoves (maxMoves + 1) (gstate0 b0 gs0) with
    | .error e => .error e
    | .ok sf =>
      .ok (record_results O sf.board P1.config P2.config sf.game_state
        sf.player_one_illegal_moves sf.player_two_illegal_moves
        sf.player_one_legal_moves sf.player_two_legal_moves
        sf.player_one_resignation sf.player_two_resignation
        sf.player_one_failed_to_find_legal_move sf.player_two_failed_to_find_legal_move
        sf.total_moves sf.illegal_moves, sf)

/-- A response is exactly one of: a legal move (both move fields present,
no flags), a resignation, or illegal-move exhaustion.  The three disjuncts
are mutually exclusive since they fix the two flags differently. -/
def LegalMoveResponse.wellFormed (r : LegalMoveResponse Move) : Prop :=
  (r.is_resignation = false ∧ r.is_illegal_move = false ∧
    r.move_san.isSome = true ∧ r.move_uci.isSome = true) ∨
  (r.is_resignation = true ∧ r.is_illegal_move = false ∧
    r.move_san = none ∧ r.move_uci = none) ∨
  (r.is_resignation = false ∧ r.is_illegal_move = true ∧
    r.move_san = none ∧ r.move_uci = none)

/-- The move tokens of a transcript: tokenize on whitespace and drop the
move-number tokens (the tokens containing a period). -/
def moveTokens (s : String) : List (List Char) :=
  (words s).filter (fun t => ! t.contains '.')

/-- The move-number tokens of a transcript: the whitespace-separated
tokens containing a period. -/
def numTokens (s : String) : List (List Char) :=
  (words s).filter (fun t => t.contains '.')

/-- Correctness assumption on the external rules oracle's SAN parser: any
accepted move text is a nonempty token containing no whitespace and no
period (true of `chess.Board.parse_san`, which matches the whole string
against the SAN grammar). -/
def cleanParser (O : Oracle Pos Move) : Prop :=
  ∀ p s m, O.parseSan p s = some m →
    s.data ≠ [] ∧ ∀ c ∈ s.data, c.isWhitespace = false ∧ c ≠ '.'

/-- The transcript invariant of the per-game loop: the whitespace tokens
of the game state are exactly the pushed moves' texts (each stripped of
its single leading space) interleaved with the move-number tokens; the
move-number tokens are the decimal renderings of the oracle full-move
numbers read at the top of each iteration, in order; and every appended
move text consists of one leading space followed by a clean token. -/
def transcriptInv (s : GState Pos Move) : Prop :=
  moveTokens s.game_state = s.trace.map (fun e => e.1.data.drop 1) ∧
  numTokens s.game_state = s.numTrace.map (fun n => (Nat.repr n).data ++ ['.']) ∧
  ∀ e ∈ s.trace, e.1.data.head? = some ' ' ∧
    ∀ c ∈ e.1.data.drop 1, c.isWhitespace = false ∧ c ≠ '.'

end Engine

/-! ## Concrete instances used by witnesses and counterexamples -/

/-- A player that proposes the same text at every attempt. -/
def constPlayer (Pos : Type) (t : Option String) (c : PlayerConfig) : Player Pos :=
  ⟨fun _ _ _ => t, c⟩

/-- An oracle over a trivial position type: one legal move, never over,
parses exactly the text `"a"`. -/
def unitOracle : Oracle Unit Unit :=
  { init := (), reset := fun _ => (), legalMoves := fun _ => [()],
    parseSan := fun _ s => if s = "a" then some () else none,
    push := fun _ _ => (), isGameOver := fun _ => false,
    result := fun _ => "*", fullmoveNumber := fun _ => 1,
    san := fun _ _ => "a" }

/-- An oracle whose position is the number of plies played: never over,
one legal move, full-move counter behaving as in chess from the initial
position. -/
def natOracle : Oracle Nat Unit :=
  { init := 0, reset := fun _ => 0, legalMoves := fun _ => [()],
    parseSan := fun _ s => if s = "a" then some () else none,
    push := fun p _ => p + 1, isGameOver := fun _ => false,
    result := fun _ => "*", fullmoveNumber := fun p => p / 2 + 1,
    san := fun _ _ => "a" }

/-- An oracle with an empty legal-move set in every position. -/
def emptyOracle : Oracle Unit Unit :=
  { init := (), reset := fun _ => (), legalMoves := fun _ => [],
    parseSan := fun _ _ => none, push := fun _ _ => (),
    isGameOver := fun _ => true, result := fun _ => "*",
    fullmoveNumber := fun _ => 1, san := fun _ _ => "a" }

/-- A model-configured player whose first proposal (`"zz"`, at the low
first-attempt urgency) fails to parse and whose later proposals are the
legal `"a"`. -/
def mixPlayer : Player Unit :=
  ⟨fun _ _ u => if u < (1 : ℚ) / 10 then some "zz" else some "a",
   .model "gpt-3.5-turbo-instruct"⟩

/-- The trivial random choice. -/
def pickU : Nat → List Unit → Unit := fun _ _ => ()

/-- Placeholder pair used for the error branches of the concrete-run
definitions below (those branches are proved unreachable). -/
def junkPair : InfoDict × GState Nat Unit :=
  ({ transcript := "", result := "", player_one_title := "",
     player_two_title := "", player_one_time := none, player_two_time := none,
     player_one_score := .num 0, player_two_score := .num 0,
     player_one_illegal_moves := 0, player_two_illegal_moves := 0,
     player_one_legal_moves := 0, player_two_legal_moves := 0,
     player_one_resignation := false, player_two_resignation := false,
     player_one_failed_to_find_legal_move := false,
     player_two_failed_to_find_legal_move := false,
     number_of_moves := 0, total_moves := 0, illegal_moves := 0 },
   gstate0 0 "")

/-- Concrete run for the C5 witness: never-ending oracle, always-legal
players, move cap 2. -/
def c5SmallRun : InfoDict × GState Nat Unit :=
  match playOneGame (constPlayer Nat (some "a") (.model "m"))
      (constPlayer Nat (some "a") (.model "m")) natOracle "" none pickU 2 with
  | .ok pr => pr
  | .error _ => junkPair

/-- Concrete run for the C5 counterexample: never-ending oracle,
always-legal players, the source's move cap `MAX_MOVES = 89`. -/
def c5CapRun : InfoDict × GState Nat Unit :=
  match playOneGame (constPlayer Nat (some "a") (.model "m"))
      (constPlayer Nat (some "a") (.model "m")) natOracle "" none pickU MAX_MOVES with
  | .ok pr => pr
  | .error _ => junkPair

/-- Concrete run for the C7 witness: same setup with move cap 1. -/
def c7SmallRun : InfoDict × GState Nat Unit :=
  match playOneGame (constPlayer Nat (some "a") (.model "m"))
      (constPlayer Nat (some "a") (.model "m")) natOracle "" none pickU 1 with
  | .ok pr => pr
  | .error _ => junkPair

/-- Concrete body step for the C8 witness. -/
def c8Step : GState Nat Unit × Bool :=
  match playGameBody (constPlayer Nat (some "a") (.model "m"))
      (constPlayer Nat (some "a") (.model "m")) natOracle 89 (gstate0 0 "") with
  | .ok pr => pr
  | .error _ => (gstate0 0 "", false)

/-! ## Tokenizer lemmas -/

theorem wordsAux_append_ws (sep : Char) (hsep : sep.isWhitespace = true) :
    ∀ (p q acc : List Char),
      wordsAux (p ++ sep :: q) acc = wordsAux p acc ++ wordsAux q [] := by
  intro p
  induction p with
  | nil =>
    intro q acc
    simp only [List.nil_append, wordsAux, hsep, if_true]
    by_cases h : acc.isEmpty <;> simp [h]
  | cons d ds ih =>
    intro q acc
    simp only [List.cons_append, wordsAux]
    by_cases hd : d.isWhitespace = true
    · simp only [hd, if_true]
      by_cases h : acc.isEmpty <;> simp [h, ih]
    · simp only [hd]
      simp [ih]

theorem wordsAux_clean (t : List Char) (ht : t ≠ [])
    (hclean : ∀ c ∈ t, c.isWhitespace = false) :
    ∀ acc, wordsAux t acc = [acc.reverse ++ t] := by
  induction t with
  | nil => exact absurd rfl ht
  | cons c cs ih =>
    intro acc
    have hc : c.isWhitespace = false := hclean c (List.mem_cons_self c cs)
    simp only [wordsAux, hc]
    rcases Decidable.em (cs = []) with h | h
    · subst h
      simp [wordsAux]
    · rw [ih h (fun d hd => hclean d (List.mem_cons_of_mem c hd)) (c :: acc)]
      simp

theorem words_empty : words "" = [] := rfl

/-- Appending a space and a clean, nonempty token adds exactly that token. -/
theorem words_append_space_token (g t : String) (ht : t.data ≠ [])
    (hclean : ∀ c ∈ t.data, c.isWhitespace = false) :
    words (g ++ " " ++ t) = words g ++ [t.data] := by
  have hdata : (g ++ " " ++ t).data = g.data ++ ' ' :: t.data := by
    rw [String.data_append, String.data_append]
    simp
  unfold words
  rw [hdata, wordsAux_append_ws ' ' (by decide), wordsAux_clean t.data ht hclean]
  simp

/-- The words of a single clean, nonempty token. -/
theorem words_single_token (t : String) (ht : t.data ≠ [])
    (hclean : ∀ c ∈ t.data, c.isWhitespace = false) :
    words t = [t.data] := by
  unfold words
  rw [wordsAux_clean t.data ht hclean]
  simp

/-! ## Decimal digits of `Nat.repr` -/

theorem digitChar_isDigit : ∀ m, m < 10 → (Nat.digitChar m).isDigit = true := by
  decide

theorem toDigitsCore_isDigit :
    ∀ (fuel n : Nat) (ds : List Char),
      (∀ c ∈ ds, c.isDigit = true) →
      ∀ c ∈ Nat.toDigitsCore 10 fuel n ds, c.isDigit = true := by
  intro fuel
  induction fuel with
  | zero => intro n ds hds; exact hds
  | succ f ih =>
    intro n ds hds c hc
    simp only [Nat.toDigitsCore] at hc
    have hdig : (Nat.digitChar (n % 10)).isDigit = true :=
      digitChar_isDigit _ (Nat.mod_lt _ (by omega))
    by_cases h : n / 10 = 0
    · simp only [h, if_true] at hc
      rcases List.mem_cons.mp hc with hc | hc
      · exact hc ▸ hdig
      · exact hds c hc
    · simp only [h, if_false] at hc
      refine ih _ _ ?_ c hc
      intro d hd
      rcases List.mem_cons.mp hd with hd | hd
      · exact hd ▸ hdig
      · exact hds d hd

theorem natRepr_isDigit (n : Nat) : ∀ c ∈ (Nat.repr n).data, c.isDigit = true := by
  intro c hc
  have : (Nat.repr n).data = Nat.toDigitsCore 10 (n + 1) n [] := rfl
  rw [this] at hc
  exact toDigitsCore_isDigit (n + 1) n [] (by simp) c hc

theorem isDigit_not_ws {c : Char} (h : c.isDigit = true) : c.isWhitespace = false := by
  by_contra hw
  rw [Bool.not_eq_false] at hw
  simp only [Char.isWhitespace, Bool.or_eq_true, decide_eq_true_eq] at hw
  rcases hw with ((h1 | h1) | h1) | h1 <;> subst h1 <;> exact absurd h (by decide)

theorem isDigit_ne_dot {c : Char} (h : c.isDigit = true) : c ≠ '.' := by
  intro he
  subst he
  simp [Char.isDigit] at h

/-- The characters of a move-number token `"<n>."`. -/
theorem numTok_data (n : Nat) :
    (Nat.repr n ++ ".").data = (Nat.repr n).data ++ ['.'] := by
  rw [String.data_append]

theorem numTok_clean (n : Nat) :
    ∀ c ∈ (Nat.repr n).data ++ ['.'], c.isWhitespace = false := by
  intro c hc
  rcases List.mem_append.mp hc with hc | hc
  · exact isDigit_not_ws (natRepr_isDigit n c hc)
  · rcases List.mem_singleton.mp hc with rfl
    decide

theorem numTok_contains_dot (n : Nat) :
    ((Nat.repr n).data ++ ['.']).contains '.' = true := by
  rw [List.elem_iff]
  simp

/-! ## Turn Resolution Engine: characterization of successful returns -/

section EngineTheorems

variable {Pos Move : Type} [DecidableEq Move]

/-- Every `Except.ok` return of the attempt loop is one of the three
outcome shapes; a legal-move return carries a parse witness for its text,
and a non-exhaustion return consumed fewer than the remaining attempts. -/
theorem getLegalMoveLoop_ok_spec (P : Player Pos) (O : Oracle Pos Move)
    (board : Pos) (gs : String) (maxA : Nat) :
    ∀ (r a : Nat) (resp : LegalMoveResponse Move),
      getLegalMoveLoop P O board gs maxA r a = .ok resp →
      (resp.is_illegal_move = true →
        resp.move_san = none ∧ resp.move_uci = none ∧ resp.is_resignation = false ∧
        resp.attempts = maxA) ∧
      (resp.is_resignation = true →
        resp.move_san = none ∧ resp.move_uci = none ∧ resp.is_illegal_move = false) ∧
      (resp.is_resignation = false → resp.is_illegal_move = false →
        ∃ raw m, O.parseSan board raw = some m ∧ m ∈ O.legalMoves board ∧
          resp.move_san = some (if startsWithSpace raw then raw else " " ++ raw) ∧
          resp.move_uci = some m) ∧
      (resp.is_illegal_move = false → a ≤ resp.attempts ∧ resp.attempts < a + r) := by
  intro r
  induction r with
  | zero =>
    intro a resp h
    simp only [getLegalMoveLoop, Except.ok.injEq] at h
    subst h
    refine ⟨fun _ => ⟨rfl, rfl, rfl, rfl⟩, ?_, ?_, ?_⟩
    · intro hres; simp at hres
    · intro _ hil; simp at hil
    · intro hil; simp at hil
  | succ rr ih =>
    intro a resp h
    simp only [getLegalMoveLoop] at h
    rcases hmv : P.getMove board gs (urgency a maxA) with _ | s
    · simp only [hmv, Bool.false_eq_true, if_false] at h
      rcases hcfg : P.config with id | ⟨sk, pt⟩
      · rw [hcfg] at h
        obtain ⟨h1, h2, h3, h4⟩ := ih (a + 1) resp h
        refine ⟨h1, h2, h3, fun hil => ?_⟩
        obtain ⟨ha, hb⟩ := h4 hil
        omega
      · rw [hcfg] at h
        simp at h
    · simp only [hmv] at h
      by_cases hmark : s = "1-0" ∨ s = "0-1" ∨ s = "1/2-1/2"
      · have hb : (decide (s = "1-0") || decide (s = "0-1") || decide (s = "1/2-1/2")) = true := by
          rcases hmark with rfl | rfl | rfl <;> simp
        simp only [hb, if_true, Except.ok.injEq] at h
        subst h
        refine ⟨?_, fun _ => ⟨rfl, rfl, rfl⟩, ?_, ?_⟩
        · intro hil; simp at hil
        · intro hres _
          simp at hres
        · intro _
          exact ⟨Nat.le_refl a, show a < a + (rr + 1) by omega⟩
      · have hb : (decide (s = "1-0") || decide (s = "0-1") || decide (s = "1/2-1/2")) = false := by
          push_neg at hmark
          obtain ⟨h1, h2, h3⟩ := hmark
          simp [h1, h2, h3]
        simp only [hb, Bool.false_eq_true, if_false] at h
        rcases hp : O.parseSan board s with _ | m
        · simp only [hp] at h
          rcases hcfg : P.config with id | ⟨sk, pt⟩
          · rw [hcfg] at h
            obtain ⟨h1, h2, h3, h4⟩ := ih (a + 1) resp h
            refine ⟨h1, h2, h3, fun hil => ?_⟩
            obtain ⟨ha, hbd⟩ := h4 hil
            omega
          · rw [hcfg] at h
            simp at h
        · simp only [hp] at h
          by_cases hmem : m ∈ O.legalMoves board
          · rw [if_pos hmem] at h
            simp only [Except.ok.injEq] at h
            subst h
            refine ⟨?_, ?_, ?_, ?_⟩
            · intro hil; simp at hil
            · intro hres; simp at hres
            · intro _ _
              exact ⟨s, m, hp, hmem, rfl, rfl⟩
            · intro _
              exact ⟨Nat.le_refl a, show a < a + (rr + 1) by omega⟩
          · rw [if_neg hmem] at h
            obtain ⟨h1, h2, h3, h4⟩ := ih (a + 1) resp h
            refine ⟨h1, h2, h3, fun hil => ?_⟩
            obtain ⟨ha, hbd⟩ := h4 hil
            omega

/-- Case analysis on a successful `play_turn`: either the state is
untouched and a terminal flag is set, or a parsed legal move was pushed
and its (normalized) text appended to the transcript and the ghost
trace. -/
theorem play_turn_cases (P : Player Pos) (O : Oracle Pos Move) (board : Pos)
    (gs : String) (tr : List (String × Move)) (p1 : Bool) (r : TurnResult Pos Move)
    (h : play_turn P O board gs tr p1 = .ok r) :
    (r.board = board ∧ r.game_state = gs ∧ r.trace = tr ∧
      (r.resignation = true ∨ r.failed_to_find_legal_move = true)) ∨
    (∃ raw m, O.parseSan board raw = some m ∧ m ∈ O.legalMoves board ∧
      r.resignation = false ∧ r.failed_to_find_legal_move = false ∧
      r.board = O.push board m ∧
      r.game_state = gs ++ (if startsWithSpace raw then raw else " " ++ raw) ∧
      r.trace = tr ++ [((if startsWithSpace raw then raw else " " ++ raw), m)]) := by
  simp only [play_turn] at h
  rcases hg : get_legal_move P O board gs p1 5 with e | resp
  · rw [hg] at h
    simp at h
  · rw [hg] at h
    dsimp only at h
    obtain ⟨h1, h2, h3, _⟩ := getLegalMoveLoop_ok_spec P O board gs 5 5 0 resp hg
    cases hres : resp.is_resignation
    · cases hil : resp.is_illegal_move
      · obtain ⟨raw, m, hp, hmem, hsan, huci⟩ := h3 hres hil
        right
        rw [hres, hil, hsan, huci] at h
        simp only [Bool.false_eq_true, if_false, Except.ok.injEq] at h
        subst h
        exact ⟨raw, m, hp, hmem, rfl, rfl, rfl, rfl, rfl⟩
      · obtain ⟨hsan, huci, _, _⟩ := h1 hil
        left
        rw [hres, hil] at h
        simp only [Bool.false_eq_true, if_false, if_true, Except.ok.injEq] at h
        subst h
        exact ⟨rfl, rfl, rfl, Or.inr rfl⟩
    · left
      rw [hres] at h
      simp only [if_true, Except.ok.injEq] at h
      subst h
      exact ⟨rfl, rfl, rfl, Or.inl rfl⟩

/-- C1: for every call of the Turn Resolution Engine (`get_legal_move`)
with `max_attempts = 5`, the attempt count of the returned
`LegalMoveResponse` lies in `[0, 5]`, and it equals 5 exactly when the
outcome is illegal-move exhaustion (`is_illegal_move = True`). -/
theorem c1_attempt_count (P : Player Pos) (O : Oracle Pos Move) (board : Pos)
    (gs : String) (p1 : Bool) (resp : LegalMoveResponse Move)
    (h : get_legal_move P O board gs p1 5 = .ok resp) :
    resp.attempts ≤ 5 ∧ (resp.attempts = 5 ↔ resp.is_illegal_move = true) := by
  obtain ⟨h1, _, _, h4⟩ := getLegalMoveLoop_ok_spec P O board gs 5 5 0 resp h
  cases hil : resp.is_illegal_move
  · obtain ⟨_, hlt⟩ := h4 hil
    refine ⟨by omega, ?_, ?_⟩
    · intro he; omega
    · intro hf; simp at hf
  · obtain ⟨_, _, _, hat⟩ := h1 hil
    exact ⟨by omega, fun _ => rfl, fun _ => hat⟩

/-- C1 witness: a legal first-attempt move by a concrete player. -/
theorem c1_attempt_count_witness :
    ({ move_san := some " a", move_uci := some (), attempts := 0,
       is_resignation := false, is_illegal_move := false } : LegalMoveResponse Unit).attempts ≤ 5 ∧
    (({ move_san := some " a", move_uci := some (), attempts := 0,
        is_resignation := false, is_illegal_move := false } : LegalMoveResponse Unit).attempts = 5 ↔
      ({ move_san := some " a", move_uci := some (), attempts := 0,
         is_resignation := false, is_illegal_move := false } : LegalMoveResponse Unit).is_illegal_move = true) :=
  c1_attempt_count (constPlayer Unit (some "a") (.model "m")) unitOracle () "" true
    { move_san := some " a", move_uci := some (), attempts := 0,
      is_resignation := false, is_illegal_move := false } (by rfl)

/-- C6: a returned text equal to one of the three terminal result markers
is classified immediately as a resignation — no move fields, the current
attempt index as attempt count, not an illegal move, and no further
retries (the loop returns instead of recursing); in particular a marker on
the first attempt resolves the whole `get_legal_move` call this way. -/
theorem c6_resignation_markers (P : Player Pos) (O : Oracle Pos Move)
    (board : Pos) (gs : String) (s : String)
    (hm : s = "1-0" ∨ s = "0-1" ∨ s = "1/2-1/2") :
    (∀ maxA r a : Nat, P.getMove board gs (urgency a maxA) = some s →
      getLegalMoveLoop P O board gs maxA (r + 1) a =
        .ok { move_san := none, move_uci := none, attempts := a,
              is_resignation := true, is_illegal_move := false }) ∧
    (∀ p1 : Bool, P.getMove board gs (urgency 0 5) = some s →
      get_legal_move P O board gs p1 5 =
        .ok { move_san := none, move_uci := none, attempts := 0,
              is_resignation := true, is_illegal_move := false }) := by
  have key : ∀ maxA r a : Nat, P.getMove board gs (urgency a maxA) = some s →
      getLegalMoveLoop P O board gs maxA (r + 1) a =
        .ok { move_san := none, move_uci := none, attempts := a,
              is_resignation := true, is_illegal_move := false } := by
    intro maxA r a hmv
    have hb : (decide (s = "1-0") || decide (s = "0-1") || decide (s = "1/2-1/2")) = true := by
      rcases hm with rfl | rfl | rfl <;> simp
    simp only [getLegalMoveLoop, hmv, hb, if_true]
  exact ⟨key, fun p1 h0 => key 5 4 0 h0⟩

/-- C6 witness: a concrete player that answers `"1-0"`. -/
theorem c6_resignation_markers_witness :
    get_legal_move (constPlayer Unit (some "1-0") (.model "m")) unitOracle () "" true 5 =
      .ok { move_san := none, move_uci := none, attempts := 0,
            is_resignation := true, is_illegal_move := false } :=
  (c6_resignation_markers (constPlayer Unit (some "1-0") (.model "m")) unitOracle
    () "" "1-0" (Or.inl rfl)).2 true rfl

/-- C10: every successful `get_legal_move` response is exactly one of
legal move / resignation / exhaustion (`wellFormed`); consequently
`play_turn`'s fallback branch for a missing move without resignation or
exhaustion is never taken (when both flags are off, a move was pushed and
appended); and an agent returning no text on an attempt just consumes that
attempt and retries (for a model-configured agent; there is no separate
`NoMoveFound` outcome). -/
theorem c10_outcome_trichotomy (P : Player Pos) (O : Oracle Pos Move)
    (board : Pos) (gs : String) (maxA : Nat) :
    (∀ (r a : Nat) (resp : LegalMoveResponse Move),
      getLegalMoveLoop P O board gs maxA r a = .ok resp → resp.wellFormed) ∧
    (∀ (tr : List (String × Move)) (p1 : Bool) (res : TurnResult Pos Move),
      play_turn P O board gs tr p1 = .ok res →
      res.resignation = false → res.failed_to_find_legal_move = false →
      ∃ s m, res.board = O.push board m ∧ res.game_state = gs ++ s ∧
        res.trace = tr ++ [(s, m)]) ∧
    (∀ (id : String) (r a : Nat), P.config = .model id →
      P.getMove board gs (urgency a maxA) = none →
      getLegalMoveLoop P O board gs maxA (r + 1) a =
        getLegalMoveLoop P O board gs maxA r (a + 1)) := by
  refine ⟨?_, ?_, ?_⟩
  · intro r a resp h
    obtain ⟨h1, h2, h3, _⟩ := getLegalMoveLoop_ok_spec P O board gs maxA r a resp h
    cases hres : resp.is_resignation
    · cases hil : resp.is_illegal_move
      · obtain ⟨raw, m, _, _, hsan, huci⟩ := h3 hres hil
        exact Or.inl ⟨hres, hil, by simp [hsan], by simp [huci]⟩
      · obtain ⟨hsan, huci, hres2, _⟩ := h1 hil
        exact Or.inr (Or.inr ⟨hres, hil, hsan, huci⟩)
    · cases hil : resp.is_illegal_move
      · obtain ⟨hsan, huci, hil2⟩ := h2 hres
        exact Or.inr (Or.inl ⟨hres, hil2, hsan, huci⟩)
      · obtain ⟨_, _, hres2, _⟩ := h1 hil
        rw [hres] at hres2
        simp at hres2
  · intro tr p1 res h hres hfail
    rcases play_turn_cases P O board gs tr p1 res h with ⟨_, _, _, hflag⟩ | hlegal
    · rcases hflag with hflag | hflag
      · rw [hres] at hflag; simp at hflag
      · rw [hfail] at hflag; simp at hflag
    · obtain ⟨raw, m, _, _, _, _, hb, hg, ht⟩ := hlegal
      exact ⟨(if startsWithSpace raw then raw else " " ++ raw), m, hb, hg, ht⟩
  · intro id r a hcfg hmv
    simp only [getLegalMoveLoop, hmv, hcfg, Bool.false_eq_true, if_false]

/-- C10 witness: the trichotomy for a concrete legal-move response, and
the retry equation for a concrete agent returning no text. -/
theorem c10_outcome_trichotomy_witness :
    ({ move_san := some " a", move_uci := some (), attempts := 0,
       is_resignation := false, is_illegal_move := false } : LegalMoveResponse Unit).wellFormed ∧
    getLegalMoveLoop (constPlayer Unit none (.model "m")) unitOracle () "" 5 5 0 =
      getLegalMoveLoop (constPlayer Unit none (.model "m")) unitOracle () "" 5 4 1 :=
  ⟨(c10_outcome_trichotomy (constPlayer Unit (some "a") (.model "m")) unitOracle
      () "" 5).1 5 0 _ (by rfl),
   (c10_outcome_trichotomy (constPlayer Unit none (.model "m")) unitOracle
      () "" 5).2.2 "m" 4 0 rfl rfl⟩

/-- C10 counterexample: an engine-configured agent returning no text does
not have the attempt counted — the `None` enters the parse-failure
handler, whose config lookup raises `KeyError` (eval.py line 213), so
`get_legal_move` aborts with no `LegalMoveResponse` at all (in particular
no exhaustion response with the attempts accounted). -/
theorem c10_none_text_counterexample :
    get_legal_move (constPlayer Unit none (.stockfish 1 (1 / 10))) unitOracle
      () "" true 5 = .error .keyError := by
  rfl

/-- One parse-failure step of the attempt loop for a model-configured
player: the attempt is consumed and the loop retries. -/
theorem getLegalMoveLoop_parse_fail_step (P : Player Pos) (O : Oracle Pos Move)
    (board : Pos) (gs : String) (maxA r a : Nat) (s : String) (id : String)
    (hcfg : P.config = .model id)
    (hmv : P.getMove board gs (urgency a maxA) = some s)
    (hnm : ¬(s = "1-0" ∨ s = "0-1" ∨ s = "1/2-1/2"))
    (hp : O.parseSan board s = none) :
    getLegalMoveLoop P O board gs maxA (r + 1) a =
      getLegalMoveLoop P O board gs maxA r (a + 1) := by
  have hb : (decide (s = "1-0") || decide (s = "0-1") || decide (s = "1/2-1/2")) = false := by
    push_neg at hnm
    obtain ⟨h1, h2, h3⟩ := hnm
    simp [h1, h2, h3]
  simp only [getLegalMoveLoop, hmv, hb, Bool.false_eq_true, if_false, hp, hcfg]

/-- One successful step of the attempt loop: an accepted move returns
immediately with the current attempt index. -/
theorem getLegalMoveLoop_legal_step (P : Player Pos) (O : Oracle Pos Move)
    (board : Pos) (gs : String) (maxA r a : Nat) (s : String) (m : Move)
    (hmv : P.getMove board gs (urgency a maxA) = some s)
    (hnm : ¬(s = "1-0" ∨ s = "0-1" ∨ s = "1/2-1/2"))
    (hp : O.parseSan board s = some m)
    (hmem : m ∈ O.legalMoves board) :
    getLegalMoveLoop P O board gs maxA (r + 1) a =
      .ok { move_san := some (if startsWithSpace s then s else " " ++ s),
            move_uci := some m, attempts := a,
            is_resignation := false, is_illegal_move := false } := by
  have hb : (decide (s = "1-0") || decide (s = "0-1") || decide (s = "1/2-1/2")) = false := by
    push_neg at hnm
    obtain ⟨h1, h2, h3⟩ := hnm
    simp [h1, h2, h3]
  simp only [getLegalMoveLoop, hmv, hb, Bool.false_eq_true, if_false, hp]
  rw [if_pos hmem]

/-- C3 (code bug at eval.py line 213): on a parse failure the handler
evaluates `player.get_config()["model"]`, which raises `KeyError` for an
engine-configured player and aborts the turn resolution, instead of
counting a failed attempt and retrying; for a model-configured player the
failure does count as one attempt and the diagnostic append has no
control-flow effect, as witnessed by a player whose unparseable first
proposal is followed by a legal move accepted with `attempts = 1`. -/
theorem c3_parse_failure_keyerror :
    get_legal_move (constPlayer Unit (some "zz") (.stockfish 1 (1 / 10))) unitOracle
        () "" true 5 = .error .keyError ∧
    get_legal_move mixPlayer unitOracle () "" true 5 =
      .ok { move_san := some " a", move_uci := some (), attempts := 1,
            is_resignation := false, is_illegal_move := false } := by
  have hu0 : urgency 0 5 < (1 : ℚ) / 10 := by
    unfold urgency
    refine min_lt_of_left_lt ?_
    norm_num
  have hu1 : ¬ urgency 1 5 < (1 : ℚ) / 10 := by
    rw [not_lt]
    unfold urgency
    refine le_min ?_ ?_ <;> norm_num
  have h0 : mixPlayer.getMove () "" (urgency 0 5) = some "zz" := by
    show (if urgency 0 5 < (1 : ℚ) / 10 then some "zz" else some "a") = some "zz"
    rw [if_pos hu0]
  have h1 : mixPlayer.getMove () "" (urgency 1 5) = some "a" := by
    show (if urgency 1 5 < (1 : ℚ) / 10 then some "zz" else some "a") = some "a"
    rw [if_neg hu1]
  constructor
  · rfl
  · show getLegalMoveLoop mixPlayer unitOracle () "" 5 (4 + 1) 0 =
      .ok { move_san := some " a", move_uci := some (), attempts := 1,
            is_resignation := false, is_illegal_move := false }
    rw [getLegalMoveLoop_parse_fail_step mixPlayer unitOracle () "" 5 4 0 "zz"
        "gpt-3.5-turbo-instruct" rfl h0 (by decide) rfl]
    show getLegalMoveLoop mixPlayer unitOracle () "" 5 (3 + 1) 1 = _
    rw [getLegalMoveLoop_legal_step mixPlayer unitOracle () "" 5 3 1 "a" () h1
        (by decide) rfl (by decide)]
    rfl

omit [DecidableEq Move] in
/-- C2: in `record_results`, resignation or illegal-move exhaustion takes
priority over the oracle's natural result: the affected side scores 0 and
the other side 1, with result string `"0-1"` when player one is the loser
and `"1-0"` when player two is the loser.  Player two is Black (player one
always moves first in `play_game`), so Black proposing `"1-0"` — which
sets `player_two_resignation` — yields White 1, Black 0. -/
theorem c2_resignation_priority (O : Oracle Pos Move) (board : Pos)
    (c1 c2 : PlayerConfig) (gs : String) (i1 i2 : Nat) (l1 l2 : ℤ)
    (p1r p2r p1f p2f : Bool) (tm im : Nat) :
    ((p1r = true ∨ p1f = true) →
      (record_results O board c1 c2 gs i1 i2 l1 l2 p1r p2r p1f p2f tm im).result = "0-1" ∧
      (record_results O board c1 c2 gs i1 i2 l1 l2 p1r p2r p1f p2f tm im).player_one_score = .num 0 ∧
      (record_results O board c1 c2 gs i1 i2 l1 l2 p1r p2r p1f p2f tm im).player_two_score = .num 1) ∧
    (p1r = false → p1f = false → (p2r = true ∨ p2f = true) →
      (record_results O board c1 c2 gs i1 i2 l1 l2 p1r p2r p1f p2f tm im).result = "1-0" ∧
      (record_results O board c1 c2 gs i1 i2 l1 l2 p1r p2r p1f p2f tm im).player_one_score = .num 1 ∧
      (record_results O board c1 c2 gs i1 i2 l1 l2 p1r p2r p1f p2f tm im).player_two_score = .num 0) := by
  cases p1r <;> cases p1f <;> cases p2r <;> cases p2f <;>
    simp [record_results]

/-- C2 witness: player two (Black) resigned. -/
theorem c2_resignation_priority_witness :
    (record_results unitOracle () (.model "W") (.model "B") "" 0 0 0 0
      false true false false 0 0).result = "1-0" ∧
    (record_results unitOracle () (.model "W") (.model "B") "" 0 0 0 0
      false true false false 0 0).player_one_score = .num 1 ∧
    (record_results unitOracle () (.model "W") (.model "B") "" 0 0 0 0
      false true false false 0 0).player_two_score = .num 0 :=
  (c2_resignation_priority unitOracle () (.model "W") (.model "B") "" 0 0 0 0
    false true false false 0 0).2 rfl rfl (Or.inl rfl)

omit [DecidableEq Move] in
/-- C4: for a standard oracle result string, `record_results` never emits
the `-1e10` sentinel; in the declared-draw move-cap case (no
resignation/exhaustion flags and oracle result `"*"`) the scores are
exactly (1/2, 1/2); in every other case the two scores denote rationals
summing to an element of {0, 1} (in fact 1: the natural draw `"1/2-1/2"`
stores the strings `"1/2"`, whose numeric reading is 1/2 each). -/
theorem c4_zero_sum (O : Oracle Pos Move) (board : Pos)
    (c1 c2 : PlayerConfig) (gs : String) (i1 i2 : Nat) (l1 l2 : ℤ)
    (p1r p2r p1f p2f : Bool) (tm im : Nat)
    (hres : O.result board = "1-0" ∨ O.result board = "0-1" ∨
      O.result board = "1/2-1/2" ∨ O.result board = "*") :
    ((record_results O board c1 c2 gs i1 i2 l1 l2 p1r p2r p1f p2f tm im).player_one_score ≠
        sentinelScore ∧
      (record_results O board c1 c2 gs i1 i2 l1 l2 p1r p2r p1f p2f tm im).player_two_score ≠
        sentinelScore) ∧
    (p1r = false ∧ p1f = false ∧ p2r = false ∧ p2f = false ∧ O.result board = "*" →
      (record_results O board c1 c2 gs i1 i2 l1 l2 p1r p2r p1f p2f tm im).player_one_score =
        .num (1 / 2) ∧
      (record_results O board c1 c2 gs i1 i2 l1 l2 p1r p2r p1f p2f tm im).player_two_score =
        .num (1 / 2)) ∧
    (¬(p1r = false ∧ p1f = false ∧ p2r = false ∧ p2f = false ∧ O.result board = "*") →
      ((record_results O board c1 c2 gs i1 i2 l1 l2 p1r p2r p1f p2f tm im).player_one_score.toRat?.isSome = true ∧
       (record_results O board c1 c2 gs i1 i2 l1 l2 p1r p2r p1f p2f tm im).player_two_score.toRat?.isSome = true ∧
       ((record_results O board c1 c2 gs i1 i2 l1 l2 p1r p2r p1f p2f tm im).player_one_score.toRat?.getD 0 +
          (record_results O board c1 c2 gs i1 i2 l1 l2 p1r p2r p1f p2f tm im).player_two_score.toRat?.getD 0 = 0 ∨
        (record_results O board c1 c2 gs i1 i2 l1 l2 p1r p2r p1f p2f tm im).player_one_score.toRat?.getD 0 +
          (record_results O board c1 c2 gs i1 i2 l1 l2 p1r p2r p1f p2f tm im).player_two_score.toRat?.getD 0 = 1))) := by
  cases p1r <;> cases p1f <;> cases p2r <;> cases p2f <;>
    rcases hres with h | h | h | h <;>
    simp [record_results, h, pyContainsDash, pySplitDash, splitOnChar,
      ScoreVal.toRat?, sentinelScore] <;>
    norm_num

/-- C4 witness: no flags, oracle result `"*"` (the move-cap declared
draw). -/
theorem c4_zero_sum_witness :
    (record_results unitOracle () (.model "W") (.model "B") "" 0 0 0 0
      false false false false 0 0).player_one_score = .num (1 / 2) ∧
    (record_results unitOracle () (.model "W") (.model "B") "" 0 0 0 0
      false false false false 0 0).player_two_score = .num (1 / 2) :=
  (c4_zero_sum unitOracle () (.model "W") (.model "B") "" 0 0 0 0
    false false false false 0 0 (Or.inr (Or.inr (Or.inr rfl)))).2.1
    ⟨rfl, rfl, rfl, rfl, rfl⟩

/-- C8: per-iteration counter bookkeeping.  Both legal-turn counters are
incremented before resolving player one's move; each side's resolution
then adds its attempt cost to its own illegal-move accumulator and, when
that cost is nonzero, takes back exactly the one optimistic increment of
its own legal-turn counter (net `+ (if cost = 0 then 1 else 0)`), leaving
the other side's counters untouched; when the iteration breaks before
player two's resolution, player two keeps its optimistic increment and an
unchanged illegal-move accumulator. -/
theorem c8_counter_bookkeeping (P1 P2 : Player Pos) (O : Oracle Pos Move)
    (maxMoves : Nat) (s s' : GState Pos Move) (cont : Bool)
    (h : playGameBody P1 P2 O maxMoves s = .ok (s', cont)) :
    ∃ r1 : TurnResult Pos Move,
      play_turn P1 O s.board (gsWithMoveNum O s) s.trace true = .ok r1 ∧
      s'.player_one_illegal_moves = s.player_one_illegal_moves + r1.illegal_moves ∧
      s'.player_one_legal_moves =
        s.player_one_legal_moves + (if r1.illegal_moves = 0 then 1 else 0) ∧
      ((O.isGameOver r1.board || r1.resignation || r1.failed_to_find_legal_move) = true ∧
        s'.player_two_illegal_moves = s.player_two_illegal_moves ∧
        s'.player_two_legal_moves = s.player_two_legal_moves + 1 ∨
       ∃ r2 : TurnResult Pos Move,
        play_turn P2 O r1.board r1.game_state r1.trace false = .ok r2 ∧
        s'.player_two_illegal_moves = s.player_two_illegal_moves + r2.illegal_moves ∧
        s'.player_two_legal_moves =
          s.player_two_legal_moves + (if r2.illegal_moves = 0 then 1 else 0)) := by
  simp only [playGameBody] at h
  rcases h1 : play_turn P1 O s.board (gsWithMoveNum O s) s.trace true with e | r1
  · rw [h1] at h
    simp at h
  · rw [h1] at h
    dsimp only at h
    refine ⟨r1, rfl, ?_⟩
    by_cases hbr : (O.isGameOver r1.board || r1.resignation || r1.failed_to_find_legal_move) = true
    · rw [if_pos hbr] at h
      simp only [Except.ok.injEq, Prod.mk.injEq] at h
      obtain ⟨hs', _⟩ := h
      subst hs'
      refine ⟨?_, ?_, Or.inl ⟨hbr, rfl, rfl⟩⟩
      · rfl
      · by_cases hz : r1.illegal_moves = 0 <;> simp [hz]
    · rw [if_neg hbr] at h
      rcases h2 : play_turn P2 O r1.board r1.game_state r1.trace false with e | r2
      · rw [h2] at h
        simp at h
      · rw [h2] at h
        dsimp only at h
        have key : s' = { s with
            board := r2.board, game_state := r2.game_state, trace := r2.trace,
            numTrace := s.numTrace ++ [O.fullmoveNumber s.board],
            total_moves := s.total_moves + 1,
            player_one_illegal_moves := s.player_one_illegal_moves + r1.illegal_moves,
            player_one_legal_moves :=
              if r1.illegal_moves ≠ 0 then s.player_one_legal_moves + 1 - 1
              else s.player_one_legal_moves + 1,
            player_two_illegal_moves := s.player_two_illegal_moves + r2.illegal_moves,
            player_two_legal_moves :=
              if r2.illegal_moves ≠ 0 then s.player_two_legal_moves + 1 - 1
              else s.player_two_legal_moves + 1,
            player_one_resignation := r1.resignation,
            player_one_failed_to_find_legal_move := r1.failed_to_find_legal_move,
            player_two_resignation := r2.resignation,
            player_two_failed_to_find_legal_move := r2.failed_to_find_legal_move } := by
          split at h
          · simp only [Except.ok.injEq, Prod.mk.injEq] at h
            exact h.1.symm
          · split at h
            · simp only [Except.ok.injEq, Prod.mk.injEq] at h
              exact h.1.symm
            · simp only [Except.ok.injEq, Prod.mk.injEq] at h
              exact h.1.symm
        subst key
        refine ⟨?_, ?_, Or.inr ⟨r2, rfl, ?_, ?_⟩⟩
        · rfl
        · by_cases hz : r1.illegal_moves = 0 <;> simp [hz]
        · rfl
        · by_cases hz : r2.illegal_moves = 0 <;> simp [hz]

/-- C8 witness: one concrete loop iteration (both sides play a clean
legal move). -/
theorem c8_counter_bookkeeping_witness :
    ∃ r1 : TurnResult Nat Unit,
      play_turn (constPlayer Nat (some "a") (.model "m")) natOracle
        (gstate0 0 "" : GState Nat Unit).board
        (gsWithMoveNum natOracle (gstate0 0 "")) (gstate0 0 "").trace true = .ok r1 ∧
      c8Step.1.player_one_illegal_moves =
        (gstate0 0 "" : GState Nat Unit).player_one_illegal_moves + r1.illegal_moves ∧
      c8Step.1.player_one_legal_moves =
        (gstate0 0 "" : GState Nat Unit).player_one_legal_moves +
          (if r1.illegal_moves = 0 then 1 else 0) ∧
      ((natOracle.isGameOver r1.board || r1.resignation || r1.failed_to_find_legal_move) = true ∧
        c8Step.1.player_two_illegal_moves =
          (gstate0 0 "" : GState Nat Unit).player_two_illegal_moves ∧
        c8Step.1.player_two_legal_moves =
          (gstate0 0 "" : GState Nat Unit).player_two_legal_moves + 1 ∨
       ∃ r2 : TurnResult Nat Unit,
        play_turn (constPlayer Nat (some "a") (.model "m")) natOracle
          r1.board r1.game_state r1.trace false = .ok r2 ∧
        c8Step.1.player_two_illegal_moves =
          (gstate0 0 "" : GState Nat Unit).player_two_illegal_moves + r2.illegal_moves ∧
        c8Step.1.player_two_legal_moves =
          (gstate0 0 "" : GState Nat Unit).player_two_legal_moves +
            (if r2.illegal_moves = 0 then 1 else 0)) :=
  c8_counter_bookkeeping (constPlayer Nat (some "a") (.model "m"))
    (constPlayer Nat (some "a") (.model "m")) natOracle 89
    (gstate0 0 "") c8Step.1 c8Step.2 (by rfl)

/-- A successful turn appends at most one move to the ghost trace. -/
theorem play_turn_trace_len (P : Player Pos) (O : Oracle Pos Move) (board : Pos)
    (gs : String) (tr : List (String × Move)) (p1 : Bool) (r : TurnResult Pos Move)
    (h : play_turn P O board gs tr p1 = .ok r) : r.trace.length ≤ tr.length + 1 := by
  rcases play_turn_cases P O board gs tr p1 r h with ⟨_, _, ht, _⟩ |
    ⟨raw, m, _, _, _, _, _, _, ht⟩ <;> rw [ht] <;> simp

/-- Bookkeeping of one loop iteration relevant to termination: the
full-move counter `total_moves` advances by exactly one, at most two plies
are pushed, continuing implies the move cap was not yet exceeded, and
stopping implies game over, a terminal flag, or the exceeded cap. -/
theorem playGameBody_step (P1 P2 : Player Pos) (O : Oracle Pos Move)
    (maxMoves : Nat) (s s' : GState Pos Move) (cont : Bool)
    (h : playGameBody P1 P2 O maxMoves s = .ok (s', cont)) :
    s'.total_moves = s.total_moves + 1 ∧
    s'.trace.length ≤ s.trace.length + 2 ∧
    (cont = true → ¬ s'.total_moves > maxMoves) ∧
    (cont = false →
      O.isGameOver s'.board = true ∨ s'.player_one_resignation = true ∨
      s'.player_one_failed_to_find_legal_move = true ∨
      s'.player_two_resignation = true ∨
      s'.player_two_failed_to_find_legal_move = true ∨
      s'.total_moves > maxMoves) := by
  simp only [playGameBody] at h
  rcases h1 : play_turn P1 O s.board (gsWithMoveNum O s) s.trace true with e | r1
  · rw [h1] at h
    simp at h
  · rw [h1] at h
    dsimp only at h
    have hlen1 : r1.trace.length ≤ s.trace.length + 1 :=
      play_turn_trace_len P1 O s.board (gsWithMoveNum O s) s.trace true r1 h1
    by_cases hbr : (O.isGameOver r1.board || r1.resignation || r1.failed_to_find_legal_move) = true
    · rw [if_pos hbr] at h
      simp only [Except.ok.injEq, Prod.mk.injEq] at h
      obtain ⟨hs', hcont⟩ := h
      subst hs'
      refine ⟨rfl, by simpa using Nat.le_succ_of_le hlen1, ?_, ?_⟩
      · intro hc; rw [hc] at hcont; cases hcont
      · intro _
        simp only [Bool.or_eq_true] at hbr
        rcases hbr with (hg | hg) | hg
        · exact Or.inl hg
        · exact Or.inr (Or.inl hg)
        · exact Or.inr (Or.inr (Or.inl hg))
    · rw [if_neg hbr] at h
      rcases h2 : play_turn P2 O r1.board r1.game_state r1.trace false with e | r2
      · rw [h2] at h
        simp at h
      · rw [h2] at h
        dsimp only at h
        have hlen2 : r2.trace.length ≤ r1.trace.length + 1 :=
          play_turn_trace_len P2 O r1.board r1.game_state r1.trace false r2 h2
        by_cases hbr2 : (O.isGameOver r2.board || r2.resignation || r2.failed_to_find_legal_move) = true
        · rw [if_pos hbr2] at h
          simp only [Except.ok.injEq, Prod.mk.injEq] at h
          obtain ⟨hs', hcont⟩ := h
          subst hs'
          refine ⟨rfl, by simp; omega, ?_, ?_⟩
          · intro hc; rw [hc] at hcont; cases hcont
          · intro _
            simp only [Bool.or_eq_true] at hbr2
            rcases hbr2 with (hg | hg) | hg
            · exact Or.inl hg
            · exact Or.inr (Or.inr (Or.inr (Or.inl hg)))
            · exact Or.inr (Or.inr (Or.inr (Or.inr (Or.inl hg))))
        · rw [if_neg hbr2] at h
          by_cases hcap : s.total_moves + 1 > maxMoves
          · rw [if_pos hcap] at h
            simp only [Except.ok.injEq, Prod.mk.injEq] at h
            obtain ⟨hs', hcont⟩ := h
            subst hs'
            refine ⟨rfl, by simp; omega, ?_, ?_⟩
            · intro hc; rw [hc] at hcont; cases hcont
            · intro _
              exact Or.inr (Or.inr (Or.inr (Or.inr (Or.inr hcap))))
          · rw [if_neg hcap] at h
            simp only [Except.ok.injEq, Prod.mk.injEq] at h
            obtain ⟨hs', hcont⟩ := h
            subst hs'
            refine ⟨rfl, by simp; omega, fun _ => hcap, ?_⟩
            intro hc; rw [← hcont] at hc; cases hc

/-- Loop invariant for the per-game `while` loop: the iteration counter
never exceeds `maxMoves + 1`, the ply count (ghost trace length) is at
most twice the iteration counter, and a final state with no terminal flag
and no game-over was stopped by the move cap, i.e. at iteration counter
exactly `maxMoves + 1`. -/
theorem playGameLoop_ok_inv (P1 P2 : Player Pos) (O : Oracle Pos Move)
    (maxMoves : Nat) :
    ∀ (fuel : Nat) (s sf : GState Pos Move),
      playGameLoop P1 P2 O maxMoves fuel s = .ok sf →
      s.total_moves ≤ maxMoves →
      s.trace.length ≤ 2 * s.total_moves →
      sf.total_moves ≤ maxMoves + 1 ∧
      sf.trace.length ≤ 2 * sf.total_moves ∧
      (sf.player_one_resignation = false →
       sf.player_one_failed_to_find_legal_move = false →
       sf.player_two_resignation = false →
       sf.player_two_failed_to_find_legal_move = false →
       O.isGameOver sf.board = false →
       sf.total_moves = maxMoves + 1) := by
  intro fuel
  induction fuel with
  | zero =>
    intro s sf h
    simp [playGameLoop] at h
  | succ f ih =>
    intro s sf h htot hlen
    simp only [playGameLoop] at h
    by_cases hgo : O.isGameOver s.board = true
    · rw [if_pos hgo] at h
      simp only [Except.ok.injEq] at h
      subst h
      refine ⟨by omega, hlen, ?_⟩
      intro _ _ _ _ hng
      rw [hgo] at hng
      cases hng
    · rw [if_neg hgo] at h
      rcases hb : playGameBody P1 P2 O maxMoves s with e | ⟨s', cont⟩
      · rw [hb] at h
        simp at h
      · rw [hb] at h
        dsimp only at h
        obtain ⟨htot', hlen', hcont, hstop⟩ :=
          playGameBody_step P1 P2 O maxMoves s s' cont hb
        cases cont
        · simp only [Bool.false_eq_true, if_false, Except.ok.injEq] at h
          subst h
          refine ⟨by omega, by omega, ?_⟩
          intro hr1 hf1 hr2 hf2 hng
          rcases hstop rfl with hg | hg | hg | hg | hg | hg
          · rw [hng] at hg; cases hg
          · rw [hr1] at hg; cases hg
          · rw [hf1] at hg; cases hg
          · rw [hr2] at hg; cases hg
          · rw [hf2] at hg; cases hg
          · omega
        · simp only [if_true] at h
          have hle : s'.total_moves ≤ maxMoves := by
            have := hcont rfl
            omega
          exact ih s' sf h hle (by omega)

/-- C5 (amended): the move-cap check of the per-game loop runs once per
full-move iteration (after both sides moved), on the full-move iteration
counter `total_moves` — not after every half-move on the ply count.
Consequently a finished game has at most `maxMoves + 1` iterations (up to
`2 * (maxMoves + 1)` plies), and a final state with no resignation, no
exhaustion and no game-over was stopped exactly by the cap, at
`total_moves = maxMoves + 1`.  Game-over, resignation and exhaustion are
still checked after every half-move. -/
theorem c5_amended_move_cap (P1 P2 : Player Pos) (O : Oracle Pos Move)
    (gs : String) (rand : Option Nat) (pick : Nat → List Move → Move)
    (maxMoves : Nat) (info : InfoDict) (sf : GState Pos Move)
    (h : playOneGame P1 P2 O gs rand pick maxMoves = .ok (info, sf)) :
    sf.total_moves ≤ maxMoves + 1 ∧
    sf.trace.length ≤ 2 * sf.total_moves ∧
    (sf.player_one_resignation = false →
     sf.player_one_failed_to_find_legal_move = false →
     sf.player_two_resignation = false →
     sf.player_two_failed_to_find_legal_move = false →
     O.isGameOver sf.board = false →
     sf.total_moves = maxMoves + 1) := by
  simp only [playOneGame] at h
  rcases hinit : (match rand with
    | some n => initialize_game_with_random_moves O pick O.init gs n
    | none => .ok (gs, O.init)) with e | ⟨gs0, b0⟩
  · rw [hinit] at h
    simp at h
  · rw [hinit] at h
    dsimp only at h
    rcases hloop : playGameLoop P1 P2 O maxMoves (maxMoves + 1) (gstate0 b0 gs0) with e | sf'
    · rw [hloop] at h
      simp at h
    · rw [hloop] at h
      simp only [Except.ok.injEq, Prod.mk.injEq] at h
      obtain ⟨_, hsf⟩ := h
      subst hsf
      exact playGameLoop_ok_inv P1 P2 O maxMoves (maxMoves + 1) (gstate0 b0 gs0) sf'
        hloop (by simp [gstate0]) (by simp [gstate0])

set_option maxRecDepth 100000 in
/-- C5 counterexample: with the source's `MAX_MOVES = 89`, a game with no
natural end and no resignation/exhaustion runs 90 full-move iterations —
180 plies — before the cap fires.  Were the claim true (termination as
soon as the ply count exceeds 89), at most 90 plies could be played. -/
theorem c5_counterexample :
    playOneGame (constPlayer Nat (some "a") (.model "m"))
        (constPlayer Nat (some "a") (.model "m")) natOracle "" none pickU MAX_MOVES =
      .ok c5CapRun ∧
    c5CapRun.2.trace.length = 180 ∧ c5CapRun.2.total_moves = 90 ∧
    MAX_MOVES = 89 ∧ ¬(180 ≤ MAX_MOVES + 1) := by
  exact ⟨rfl, rfl, rfl, rfl, by decide⟩

/-- C5 witness for the amended theorem: the same setup with cap 2
terminates at `total_moves = 2 + 1` with 6 plies. -/
theorem c5_amended_move_cap_witness :
    c5SmallRun.2.total_moves ≤ 2 + 1 ∧
    c5SmallRun.2.trace.length ≤ 2 * c5SmallRun.2.total_moves ∧
    (c5SmallRun.2.player_one_resignation = false →
     c5SmallRun.2.player_one_failed_to_find_legal_move = false →
     c5SmallRun.2.player_two_resignation = false →
     c5SmallRun.2.player_two_failed_to_find_legal_move = false →
     natOracle.isGameOver c5SmallRun.2.board = false →
     c5SmallRun.2.total_moves = 2 + 1) :=
  c5_amended_move_cap (constPlayer Nat (some "a") (.model "m"))
    (constPlayer Nat (some "a") (.model "m")) natOracle "" none pickU 2
    c5SmallRun.1 c5SmallRun.2 (by rfl)

/-- Exhausting every opening-generation attempt (each from a fresh reset,
consuming the random stream from any position) reaches the `for/else`
`raise`. -/
theorem initAttemptLoop_all_fail (O : Oracle Pos Move)
    (pick : Nat → List Move → Move) (b0 : Pos) (gs : String) (N : Nat)
    (hfail : ∀ ctr, (initAttempt O pick b0 gs N ctr).2.2.1 = []) :
    ∀ r ctr, initAttemptLoop O pick b0 gs N r ctr =
      .error (.exception "Failed to initialize the game after maximum attempts.") := by
  intro r
  induction r with
  | zero => intro ctr; rfl
  | succ rr ih =>
    intro ctr
    have hf := hfail ctr
    rcases ht : initAttempt O pick b0 gs N ctr with ⟨gs1, b1, moves1, ctr1⟩
    rw [ht] at hf
    simp only at hf
    simp only [initAttemptLoop, ht, hf]
    simp [ih ctr1]

/-- C9: random opening initialization makes at most 5 attempts, each from
a fresh board/transcript reset (`initAttempt` resets both); when every
attempt ends with an empty legal-move list (its success variable `moves`
empty), the initializer raises the fatal configuration error, and
`playOneGame` then propagates it: no result record is produced for that
game. -/
theorem c9_opening_init_exhaustion (O : Oracle Pos Move)
    (pick : Nat → List Move → Move) (gs : String) (N : Nat)
    (hfail : ∀ ctr, (initAttempt O pick O.init gs N ctr).2.2.1 = []) :
    initialize_game_with_random_moves O pick O.init gs N =
      .error (.exception "Failed to initialize the game after maximum attempts.") ∧
    ∀ (P1 P2 : Player Pos) (maxMoves : Nat),
      playOneGame P1 P2 O gs (some N) pick maxMoves =
        .error (.exception "Failed to initialize the game after maximum attempts.") := by
  have key := initAttemptLoop_all_fail O pick O.init gs N hfail 5 0
  refine ⟨key, ?_⟩
  intro P1 P2 maxMoves
  simp only [playOneGame, initialize_game_with_random_moves] at key ⊢
  rw [key]

/-- C9 witness: an oracle with empty legal-move sets everywhere, opening
depth 3 — every attempt fails immediately, the error is raised, no record
is emitted. -/
theorem c9_opening_init_exhaustion_witness :
    initialize_game_with_random_moves emptyOracle pickU emptyOracle.init "" 3 =
      .error (.exception "Failed to initialize the game after maximum attempts.") ∧
    playOneGame (constPlayer Unit (some "a") (.model "m"))
        (constPlayer Unit (some "a") (.model "m")) emptyOracle "" (some 3) pickU MAX_MOVES =
      .error (.exception "Failed to initialize the game after maximum attempts.") :=
  ⟨(c9_opening_init_exhaustion emptyOracle pickU "" 3 (fun _ => rfl)).1,
   (c9_opening_init_exhaustion emptyOracle pickU "" 3 (fun _ => rfl)).2
     (constPlayer Unit (some "a") (.model "m"))
     (constPlayer Unit (some "a") (.model "m")) MAX_MOVES⟩

/-- A string accepted by a clean parser does not start with a space, so
the source's normalization prepends exactly one. -/
theorem startsWithSpace_eq_false (t : String) (hne : t.data ≠ [])
    (hcl : ∀ c ∈ t.data, c.isWhitespace = false ∧ c ≠ '.') :
    startsWithSpace t = false := by
  unfold startsWithSpace
  rcases hd : t.data with _ | ⟨c, cs⟩
  · exact absurd hd hne
  · have hc := hcl c (by rw [hd]; exact List.mem_cons_self c cs)
    have hcs : c ≠ ' ' := by
      intro he
      rw [he] at hc
      exact absurd hc.1 (by decide)
    simp [hcs]

/-- Appending a space-separated clean token to a transcript appends
exactly that token to its word list. -/
theorem words_append_clean (g t : String) (hne : t.data ≠ [])
    (hcl : ∀ c ∈ t.data, c.isWhitespace = false) :
    words (g ++ (" " ++ t)) = words g ++ [t.data] := by
  rw [← String.append_assoc]
  exact words_append_space_token g t hne hcl

omit [DecidableEq Move] in
/-- The word list of the transcript after the move-number append: the
number token `"<n>."` becomes one additional whitespace token (given that
a nonempty transcript gets its separating space, i.e. the full-move number
is not 1 then). -/
theorem words_gsWithMoveNum (O : Oracle Pos Move) (s : GState Pos Move)
    (hgs : s.game_state = "" ∨ O.fullmoveNumber s.board ≠ 1) :
    words (gsWithMoveNum O s) =
      words s.game_state ++ [(Nat.repr (O.fullmoveNumber s.board)).data ++ ['.']] := by
  have hne : (Nat.repr (O.fullmoveNumber s.board) ++ ".").data ≠ [] := by
    rw [numTok_data]
    simp
  have hcl : ∀ c ∈ (Nat.repr (O.fullmoveNumber s.board) ++ ".").data,
      c.isWhitespace = false := by
    rw [numTok_data]
    exact numTok_clean (O.fullmoveNumber s.board)
  by_cases hfm : O.fullmoveNumber s.board ≠ 1
  · unfold gsWithMoveNum
    rw [if_pos hfm]
    rw [words_append_space_token s.game_state
      (Nat.repr (O.fullmoveNumber s.board) ++ ".") hne hcl, numTok_data]
  · have hempty : s.game_state = "" := by
      rcases hgs with hg | hg
      · exact hg
      · exact absurd hg hfm
    unfold gsWithMoveNum
    rw [if_neg hfm, hempty]
    unfold words
    have hdata : ("" ++ (Nat.repr (O.fullmoveNumber s.board) ++ ".")).data =
        (Nat.repr (O.fullmoveNumber s.board) ++ ".").data := by
      rw [String.data_append]
      simp
    rw [hdata, wordsAux_clean _ hne hcl, numTok_data]
    simp [wordsAux]

omit [DecidableEq Move] in
/-- The two filtered token views after the move-number append. -/
theorem tokens_gsWithMoveNum (O : Oracle Pos Move) (s : GState Pos Move)
    (hgs : s.game_state = "" ∨ O.fullmoveNumber s.board ≠ 1) :
    moveTokens (gsWithMoveNum O s) = moveTokens s.game_state ∧
    numTokens (gsWithMoveNum O s) =
      numTokens s.game_state ++ [(Nat.repr (O.fullmoveNumber s.board)).data ++ ['.']] := by
  unfold moveTokens numTokens
  rw [words_gsWithMoveNum O s hgs, List.filter_append, List.filter_append]
  have hm : '.' ∈ (Nat.repr (O.fullmoveNumber s.board)).data ++ ['.'] := by simp
  constructor
  · rw [List.filter_singleton]
    simp [hm]
  · rw [List.filter_singleton]
    simp [hm]

/-- The two filtered token views after a clean move-text append. -/
theorem tokens_append_move (g t : String) (hne : t.data ≠ [])
    (hcl : ∀ c ∈ t.data, c.isWhitespace = false ∧ c ≠ '.') :
    moveTokens (g ++ (" " ++ t)) = moveTokens g ++ [t.data] ∧
    numTokens (g ++ (" " ++ t)) = numTokens g := by
  unfold moveTokens numTokens
  rw [words_append_clean g t hne (fun c hc => (hcl c hc).1),
    List.filter_append, List.filter_append]
  have hnm : ¬('.' ∈ t.data) := fun hm => absurd rfl (hcl '.' hm).2
  constructor
  · rw [List.filter_singleton]
    simp [hnm]
  · rw [List.filter_singleton]
    simp [hnm]

/-- The character data of a normalized move text. -/
theorem space_append_data (t : String) : (" " ++ t).data = ' ' :: t.data := by
  rw [String.data_append]
  rfl

/-- One loop iteration preserves the transcript invariant, and when the
loop continues the full-move number has advanced past 1 (so the next
iteration appends its separating space). -/
theorem playGameBody_transcriptInv (P1 P2 : Player Pos) (O : Oracle Pos Move)
    (maxMoves : Nat) (hclean : cleanParser O)
    (hfm1 : ∀ p, 1 ≤ O.fullmoveNumber p)
    (hfm2 : ∀ p m mm, O.fullmoveNumber p + 1 ≤ O.fullmoveNumber (O.push (O.push p m) mm))
    (s s' : GState Pos Move) (cont : Bool)
    (h : playGameBody P1 P2 O maxMoves s = .ok (s', cont))
    (hinv : transcriptInv s)
    (hgs : s.game_state = "" ∨ 2 ≤ O.fullmoveNumber s.board) :
    transcriptInv s' ∧ (cont = true → 2 ≤ O.fullmoveNumber s'.board) := by
  obtain ⟨hmt, hnt, hwf⟩ := hinv
  have hgs1 : s.game_state = "" ∨ O.fullmoveNumber s.board ≠ 1 := by
    rcases hgs with hg | hg
    · exact Or.inl hg
    · right; omega
  obtain ⟨hmt1, hnt1⟩ := tokens_gsWithMoveNum O s hgs1
  simp only [playGameBody] at h
  rcases h1 : play_turn P1 O s.board (gsWithMoveNum O s) s.trace true with e | r1
  · rw [h1] at h
    simp at h
  · rw [h1] at h
    dsimp only at h
    rcases play_turn_cases P1 O s.board (gsWithMoveNum O s) s.trace true r1 h1 with
      ⟨hb1, hg1, ht1, hflag1⟩ | ⟨raw1, m1, hp1, hmem1, hres1, hfail1, hb1, hg1, ht1⟩
    · -- player one's turn set a terminal flag; the iteration breaks.
      have hbr : (O.isGameOver r1.board || r1.resignation ||
          r1.failed_to_find_legal_move) = true := by
        rcases hflag1 with hf | hf <;> simp [hf]
      rw [if_pos hbr] at h
      simp only [Except.ok.injEq, Prod.mk.injEq] at h
      obtain ⟨hs', hcont⟩ := h
      subst hs'
      refine ⟨⟨?_, ?_, ?_⟩, ?_⟩
      · rw [hg1, ht1, hmt1, hmt]
      · rw [hg1, hnt1, hnt]
        simp [List.map_append]
      · rw [ht1]; exact hwf
      · intro hct; rw [← hcont] at hct; cases hct
    · -- player one pushed a legal move.
      obtain ⟨hne1, hcl1⟩ := hclean s.board raw1 m1 hp1
      have hsw1 : startsWithSpace raw1 = false := startsWithSpace_eq_false raw1 hne1 hcl1
      rw [hsw1] at hg1 ht1
      simp only [Bool.false_eq_true, if_false] at hg1 ht1
      obtain ⟨hmtA, hntA⟩ := tokens_append_move (gsWithMoveNum O s) raw1 hne1 hcl1
      have invA : moveTokens r1.game_state =
            r1.trace.map (fun e => e.1.data.drop 1) ∧
          numTokens r1.game_state =
            (s.numTrace ++ [O.fullmoveNumber s.board]).map
              (fun n => (Nat.repr n).data ++ ['.']) ∧
          ∀ e ∈ r1.trace, e.1.data.head? = some ' ' ∧
            ∀ c ∈ e.1.data.drop 1, c.isWhitespace = false ∧ c ≠ '.' := by
        refine ⟨?_, ?_, ?_⟩
        · rw [hg1, ht1, hmtA, hmt1, hmt, List.map_append]
          simp [space_append_data]
        · rw [hg1, hntA, hnt1, hnt]
          simp [List.map_append]
        · rw [ht1]
          intro e he
          rcases List.mem_append.mp he with he | he
          · exact hwf e he
          · rcases List.mem_singleton.mp he with rfl
            refine ⟨by rw [space_append_data]; rfl, ?_⟩
            intro c hc
            rw [space_append_data] at hc
            simp only [List.drop_succ_cons, List.drop_zero] at hc
            exact hcl1 c hc
      by_cases hbr : (O.isGameOver r1.board || r1.resignation ||
          r1.failed_to_find_legal_move) = true
      · rw [if_pos hbr] at h
        simp only [Except.ok.injEq, Prod.mk.injEq] at h
        obtain ⟨hs', hcont⟩ := h
        subst hs'
        refine ⟨⟨invA.1, invA.2.1, invA.2.2⟩, ?_⟩
        intro hct; rw [← hcont] at hct; cases hct
      · rw [if_neg hbr] at h
        rcases h2 : play_turn P2 O r1.board r1.game_state r1.trace false with e | r2
        · rw [h2] at h
          simp at h
        · rw [h2] at h
          dsimp only at h
          rcases play_turn_cases P2 O r1.board r1.game_state r1.trace false r2 h2 with
            ⟨hb2, hg2, ht2, hflag2⟩ | ⟨raw2, m2, hp2, hmem2, hres2, hfail2, hb2, hg2, ht2⟩
          · -- player two's turn set a terminal flag; the iteration breaks.
            have hbr2 : (O.isGameOver r2.board || r2.resignation ||
                r2.failed_to_find_legal_move) = true := by
              rcases hflag2 with hf | hf <;> simp [hf]
            rw [if_pos hbr2] at h
            simp only [Except.ok.injEq, Prod.mk.injEq] at h
            obtain ⟨hs', hcont⟩ := h
            subst hs'
            refine ⟨⟨?_, ?_, ?_⟩, ?_⟩
            · rw [hg2, ht2]; exact invA.1
            · rw [hg2]; exact invA.2.1
            · rw [ht2]; exact invA.2.2
            · intro hct; rw [← hcont] at hct; cases hct
          · -- player two pushed a legal move.
            obtain ⟨hne2, hcl2⟩ := hclean r1.board raw2 m2 hp2
            have hsw2 : startsWithSpace raw2 = false :=
              startsWithSpace_eq_false raw2 hne2 hcl2
            rw [hsw2] at hg2 ht2
            simp only [Bool.false_eq_true, if_false] at hg2 ht2
            obtain ⟨hmtB, hntB⟩ := tokens_append_move r1.game_state raw2 hne2 hcl2
            have invB : moveTokens r2.game_state =
                  r2.trace.map (fun e => e.1.data.drop 1) ∧
                numTokens r2.game_state =
                  (s.numTrace ++ [O.fullmoveNumber s.board]).map
                    (fun n => (Nat.repr n).data ++ ['.']) ∧
                ∀ e ∈ r2.trace, e.1.data.head? = some ' ' ∧
                  ∀ c ∈ e.1.data.drop 1, c.isWhitespace = false ∧ c ≠ '.' := by
              refine ⟨?_, ?_, ?_⟩
              · rw [hg2, ht2, hmtB, invA.1, List.map_append]
                simp [space_append_data]
              · rw [hg2, hntB]
                exact invA.2.1
              · rw [ht2]
                intro e he
                rcases List.mem_append.mp he with he | he
                · exact invA.2.2 e he
                · rcases List.mem_singleton.mp he with rfl
                  refine ⟨by rw [space_append_data]; rfl, ?_⟩
                  intro c hc
                  rw [space_append_data] at hc
                  simp only [List.drop_succ_cons, List.drop_zero] at hc
                  exact hcl2 c hc
            have hfm : 2 ≤ O.fullmoveNumber r2.board := by
              rw [hb2, hb1]
              have := hfm2 s.board m1 m2
              have := hfm1 s.board
              omega
            by_cases hbr2 : (O.isGameOver r2.board || r2.resignation ||
                r2.failed_to_find_legal_move) = true
            · rw [if_pos hbr2] at h
              simp only [Except.ok.injEq, Prod.mk.injEq] at h
              obtain ⟨hs', hcont⟩ := h
              subst hs'
              refine ⟨⟨invB.1, invB.2.1, invB.2.2⟩, ?_⟩
              intro hct; rw [← hcont] at hct; cases hct
            · rw [if_neg hbr2] at h
              by_cases hcap : s.total_moves + 1 > maxMoves
              · rw [if_pos hcap] at h
                simp only [Except.ok.injEq, Prod.mk.injEq] at h
                obtain ⟨hs', hcont⟩ := h
                subst hs'
                refine ⟨⟨invB.1, invB.2.1, invB.2.2⟩, ?_⟩
                intro hct; rw [← hcont] at hct; cases hct
              · rw [if_neg hcap] at h
                simp only [Except.ok.injEq, Prod.mk.injEq] at h
                obtain ⟨hs', _⟩ := h
                subst hs'
                exact ⟨⟨invB.1, invB.2.1, invB.2.2⟩, fun _ => hfm⟩

/-- The per-game loop preserves the transcript invariant from any state
whose transcript is empty or whose full-move number has advanced past 1. -/
theorem playGameLoop_transcriptInv (P1 P2 : Player Pos) (O : Oracle Pos Move)
    (maxMoves : Nat) (hclean : cleanParser O)
    (hfm1 : ∀ p, 1 ≤ O.fullmoveNumber p)
    (hfm2 : ∀ p m mm, O.fullmoveNumber p + 1 ≤ O.fullmoveNumber (O.push (O.push p m) mm)) :
    ∀ (fuel : Nat) (s sf : GState Pos Move),
      playGameLoop P1 P2 O maxMoves fuel s = .ok sf →
      transcriptInv s →
      (s.game_state = "" ∨ 2 ≤ O.fullmoveNumber s.board) →
      transcriptInv sf := by
  intro fuel
  induction fuel with
  | zero =>
    intro s sf h
    simp [playGameLoop] at h
  | succ f ih =>
    intro s sf h hinv hgs
    simp only [playGameLoop] at h
    by_cases hgo : O.isGameOver s.board = true
    · rw [if_pos hgo] at h
      simp only [Except.ok.injEq] at h
      subst h
      exact hinv
    · rw [if_neg hgo] at h
      rcases hb : playGameBody P1 P2 O maxMoves s with e | ⟨s', cont⟩
      · rw [hb] at h
        simp at h
      · rw [hb] at h
        dsimp only at h
        obtain ⟨hinv', hcont⟩ := playGameBody_transcriptInv P1 P2 O maxMoves
          hclean hfm1 hfm2 s s' cont hb hinv hgs
        cases cont
        · simp only [Bool.false_eq_true, if_false, Except.ok.injEq] at h
          subst h
          exact hinv'
        · simp only [if_true] at h
          exact ih s' sf h hinv' (Or.inr (hcont rfl))

/-- C7: for a game played from an empty initial transcript without random
opening (the transcript portion produced by the orchestrator itself),
assuming the external rules oracle accepts only clean SAN tokens
(`cleanParser`) and its full-move counter starts at ≥ 1 and advances by at
least one across each pair of pushes (true of chess), the final state
satisfies `transcriptInv`: tokenizing the transcript on whitespace and
dropping the move-number tokens (those containing a period) yields
exactly, in order, the texts of the moves applied to the board (each
stripped of the single leading space its append was normalized to carry);
the move-number tokens are exactly `"<n>."` for the oracle's full-move
counter read when each full-move iteration begins, in order. -/
theorem c7_transcript_roundtrip (P1 P2 : Player Pos) (O : Oracle Pos Move)
    (pick : Nat → List Move → Move) (maxMoves : Nat) (info : InfoDict)
    (sf : GState Pos Move)
    (hclean : cleanParser O)
    (hfm1 : ∀ p, 1 ≤ O.fullmoveNumber p)
    (hfm2 : ∀ p m mm, O.fullmoveNumber p + 1 ≤ O.fullmoveNumber (O.push (O.push p m) mm))
    (h : playOneGame P1 P2 O "" none pick maxMoves = .ok (info, sf)) :
    transcriptInv sf := by
  simp only [playOneGame] at h
  rcases hloop : playGameLoop P1 P2 O maxMoves (maxMoves + 1) (gstate0 O.init "")
    with e | sf'
  · rw [hloop] at h
    simp at h
  · rw [hloop] at h
    simp only [Except.ok.injEq, Prod.mk.injEq] at h
    obtain ⟨_, hsf⟩ := h
    subst hsf
    refine playGameLoop_transcriptInv P1 P2 O maxMoves hclean hfm1 hfm2 _ _ _
      hloop ⟨rfl, rfl, by simp [gstate0]⟩ (Or.inl rfl)

/-- The concrete oracle of the C7 witness accepts only the clean token
`"a"`. -/
theorem natOracle_clean : cleanParser natOracle := by
  intro p s m hp
  have hps : natOracle.parseSan p s = if s = "a" then some () else none := rfl
  rw [hps] at hp
  by_cases hs : s = "a"
  · subst hs
    constructor
    · simp
    · intro c hc
      have hd : ("a" : String).data = ['a'] := rfl
      rw [hd] at hc
      rcases List.mem_singleton.mp hc with rfl
      exact ⟨by decide, by decide⟩
  · rw [if_neg hs] at hp
    cases hp

/-- C7 witness: a two-iteration game (cap 1) over the concrete counting
oracle; the theorem's oracle hypotheses hold and the round-trip invariant
follows for the evaluated run. -/
theorem c7_transcript_roundtrip_witness : transcriptInv c7SmallRun.2 :=
  c7_transcript_roundtrip (constPlayer Nat (some "a") (.model "m"))
    (constPlayer Nat (some "a") (.model "m")) natOracle pickU 1
    c7SmallRun.1 c7SmallRun.2 natOracle_clean
    (fun p => by show 1 ≤ p / 2 + 1; omega)
    (fun p m mm => by show p / 2 + 1 + 1 ≤ (p + 1 + 1) / 2 + 1; omega)
    (by rfl)

/-- The attempt loop's only error is the `KeyError` of the diagnostic
branch. -/
theorem getLegalMoveLoop_error_spec (P : Player Pos) (O : Oracle Pos Move)
    (board : Pos) (gs : String) (maxA : Nat) :
    ∀ (r a : Nat) (e : PyError),
      getLegalMoveLoop P O board gs maxA r a = .error e → e = .keyError := by
  intro r
  induction r with
  | zero =>
    intro a e h
    simp [getLegalMoveLoop] at h
  | succ rr ih =>
    intro a e h
    simp only [getLegalMoveLoop] at h
    rcases hmv : P.getMove board gs (urgency a maxA) with _ | s
    · simp only [hmv, Bool.false_eq_true, if_false] at h
      rcases hcfg : P.config with id | ⟨sk, pt⟩
      · rw [hcfg] at h
        exact ih (a + 1) e h
      · rw [hcfg] at h
        simp only [Except.error.injEq] at h
        exact h.symm
    · simp only [hmv] at h
      by_cases hmark : (decide (s = "1-0") || decide (s = "0-1") || decide (s = "1/2-1/2")) = true
      · rw [if_pos hmark] at h
        simp at h
      · rw [if_neg hmark] at h
        rcases hp : O.parseSan board s with _ | m
        · simp only [hp] at h
          rcases hcfg : P.config with id | ⟨sk, pt⟩
          · rw [hcfg] at h
            exact ih (a + 1) e h
          · rw [hcfg] at h
            simp only [Except.error.injEq] at h
            exact h.symm
        · simp only [hp] at h
          by_cases hmem : m ∈ O.legalMoves board
          · rw [if_pos hmem] at h
            simp at h
          · rw [if_neg hmem] at h
            exact ih (a + 1) e h

/-- `play_turn` propagates only that `KeyError`. -/
theorem play_turn_error_spec (P : Player Pos) (O : Oracle Pos Move)
    (board : Pos) (gs : String) (tr : List (String × Move)) (p1 : Bool)
    (e : PyError) (h : play_turn P O board gs tr p1 = .error e) : e = .keyError := by
  simp only [play_turn] at h
  rcases hg : get_legal_move P O board gs p1 5 with e' | resp
  · rw [hg] at h
    simp only [Except.error.injEq] at h
    subst h
    exact getLegalMoveLoop_error_spec P O board gs 5 5 0 e' hg
  · rw [hg] at h
    dsimp only at h
    split at h
    · simp at h
    · split at h
      · simp at h
      · rcases hms : resp.move_san with _ | ss <;>
          rcases hmu : resp.move_uci with _ | mm <;>
          rw [hms, hmu] at h <;> simp at h

/-- The loop body propagates only that `KeyError`. -/
theorem playGameBody_error_spec (P1 P2 : Player Pos) (O : Oracle Pos Move)
    (maxMoves : Nat) (s : GState Pos Move) (e : PyError)
    (h : playGameBody P1 P2 O maxMoves s = .error e) : e = .keyError := by
  simp only [playGameBody] at h
  rcases h1 : play_turn P1 O s.board (gsWithMoveNum O s) s.trace true with e1 | r1
  · rw [h1] at h
    simp only [Except.error.injEq] at h
    subst h
    exact play_turn_error_spec P1 O s.board (gsWithMoveNum O s) s.trace true e1 h1
  · rw [h1] at h
    dsimp only at h
    split at h
    · simp at h
    · rcases h2 : play_turn P2 O r1.board r1.game_state r1.trace false with e2 | r2
      · rw [h2] at h
        simp only [Except.error.injEq] at h
        subst h
        exact play_turn_error_spec P2 O r1.board r1.game_state r1.trace false e2 h2
      · rw [h2] at h
        dsimp only at h
        split at h
        · simp at h
        · split at h <;> simp at h

/-- With fuel covering the remaining iterations allowed by the move cap,
the per-game loop never reports fuel exhaustion: the embedding artifact is
unreachable. -/
theorem playGameLoop_not_fuelExhausted (P1 P2 : Player Pos) (O : Oracle Pos Move)
    (maxMoves : Nat) :
    ∀ (fuel : Nat) (s : GState Pos Move),
      maxMoves + 1 ≤ fuel + s.total_moves →
      s.total_moves ≤ maxMoves →
      playGameLoop P1 P2 O maxMoves fuel s ≠ .error .fuelExhausted := by
  intro fuel
  induction fuel with
  | zero =>
    intro s hf ht
    omega
  | succ f ih =>
    intro s hf ht h
    simp only [playGameLoop] at h
    by_cases hgo : O.isGameOver s.board = true
    · rw [if_pos hgo] at h
      cases h
    · rw [if_neg hgo] at h
      rcases hb : playGameBody P1 P2 O maxMoves s with e | ⟨s', cont⟩
      · rw [hb] at h
        simp only [Except.error.injEq] at h
        have := playGameBody_error_spec P1 P2 O maxMoves s e hb
        rw [this] at h
        cases h
      · rw [hb] at h
        dsimp only at h
        obtain ⟨htot', _, hcont, _⟩ := playGameBody_step P1 P2 O maxMoves s s' cont hb
        cases cont
        · simp only [Bool.false_eq_true, if_false] at h
          cases h
        · simp only [if_true] at h
          have hle : s'.total_moves ≤ maxMoves := by
            have := hcont rfl
            omega
          exact ih s' (by omega) hle h

/-- The opening initializer errors only with the configuration-fatal
exception. -/
theorem initAttemptLoop_error_spec (O : Oracle Pos Move)
    (pick : Nat → List Move → Move) (b0 : Pos) (gs : String) (N : Nat) :
    ∀ (r ctr : Nat) (e : PyError),
      initAttemptLoop O pick b0 gs N r ctr = .error e →
      e = .exception "Failed to initialize the game after maximum attempts." := by
  intro r
  induction r with
  | zero =>
    intro ctr e h
    simp only [initAttemptLoop, Except.error.injEq] at h
    exact h.symm
  | succ rr ih =>
    intro ctr e h
    simp only [initAttemptLoop] at h
    rcases ht : initAttempt O pick b0 gs N ctr with ⟨gs1, b1, moves1, ctr1⟩
    rw [ht] at h
    dsimp only at h
    by_cases hm : moves1 ≠ []
    · rw [if_pos hm] at h
      cases h
    · rw [if_neg hm] at h
      exact ih ctr1 e h

/-- `playOneGame` never reports fuel exhaustion: its fuel `maxMoves + 1`
covers every possible iteration of the source's `while` loop. -/
theorem playOneGame_not_fuelExhausted (P1 P2 : Player Pos) (O : Oracle Pos Move)
    (gs : String) (rand : Option Nat) (pick : Nat → List Move → Move)
    (maxMoves : Nat) :
    playOneGame P1 P2 O gs rand pick maxMoves ≠ .error .fuelExhausted := by
  intro h
  simp only [playOneGame] at h
  rcases hinit : (match rand with
    | some n => initialize_game_with_random_moves O pick O.init gs n
    | none => .ok (gs, O.init)) with e | ⟨gs0, b0⟩
  · rw [hinit] at h
    simp only [Except.error.injEq] at h
    rcases rand with _ | n
    · simp only at hinit
      cases hinit
    · simp only [initialize_game_with_random_moves] at hinit
      have := initAttemptLoop_error_spec O pick O.init gs n 5 0 e hinit
      rw [this] at h
      cases h
  · rw [hinit] at h
    dsimp only at h
    rcases hloop : playGameLoop P1 P2 O maxMoves (maxMoves + 1) (gstate0 b0 gs0)
      with e | sf
    · rw [hloop] at h
      simp only [Except.error.injEq] at h
      subst h
      exact playGameLoop_not_fuelExhausted P1 P2 O maxMoves (maxMoves + 1)
        (gstate0 b0 gs0) (by simp [gstate0]) (by simp [gstate0]) hloop
    · rw [hloop] at h
      simp at h

end EngineTheorems

end ChessGPT
